import Mathlib

/-!
Shallow embedding of the per-actor core of the actor framework
(src/libcaf_core/src/local_actor.cpp and caf/local_actor.hpp),
with theorems settling the specification claims about it.

Machine integers are modelled as `Nat` with explicit wrapping:
`uint64_t` arithmetic through `w64`/`sub64` and `uint32_t` through `w32`.
-/

namespace Caf

/-- 2^64, the modulus of `uint64_t` arithmetic. -/
def U64 : Nat := 18446744073709551616

/-- 2^32, the modulus of `uint32_t` arithmetic. -/
def U32 : Nat := 4294967296

/-- Wrap a value into `uint64_t` range. -/
def w64 (x : Nat) : Nat := x % U64

/-- `uint64_t` subtraction `a - b` (two's complement wrap), for `a < U64`. -/
def sub64 (a b : Nat) : Nat := (a + U64 - b % U64) % U64

/-- `uint32_t` wrap. -/
def w32 (x : Nat) : Nat := x % U32

theorem U64_pos : 0 < U64 := by decide

theorem w64_lt (x : Nat) : w64 x < U64 := Nat.mod_lt _ U64_pos

/-- For in-range operands without borrow, `sub64` is plain subtraction. -/
theorem sub64_eq_sub {a b : Nat} (ha : a < U64) (hb : b ≤ a) :
    sub64 a b = a - b := by
  unfold sub64
  rw [Nat.mod_eq_of_lt (lt_of_le_of_lt hb ha)]
  rw [show a + U64 - b = (a - b) + U64 by omega]
  rw [Nat.add_mod_right, Nat.mod_eq_of_lt (by omega)]

theorem w64_eq_of_lt {x : Nat} (h : x < U64) : w64 x = x := Nat.mod_eq_of_lt h

/-- Actor addresses (`actor_addr`), abstracted to names. -/
abbrev Addr := Nat

/-!
## Source credit ledger (`local_actor::grant_credit`, local_actor.cpp:1220-1288)

The ledger consists of the unassigned credit `open_credit_` and the
registered-sources map `sources_ : actor_addr -> uint64_t credit`.
`max_credit_` and `low_watermark_` are set once in the constructor
(local_actor.cpp:197-199) and never written afterwards, so they are
constants of the model.  The `unordered_map` is modelled as an association
list with unique keys; iteration order is the list order.

Weak-pointer liveness (`actor_cast<strong_actor_ptr>` succeeding) is a
parameter `live : Addr -> Bool`.
-/

/-- `max_credit_`, hard-coded to 50 in the constructor (local_actor.cpp:199). -/
def maxCredit : Nat := 50

/-- `low_watermark_`, hard-coded to 10 in the constructor (local_actor.cpp:198). -/
def lowWatermark : Nat := 10

/-- The credit-relevant state of an actor. -/
structure CreditState where
  openCredit : Nat
  sources : List (Addr × Nat)
  deriving Repr, DecidableEq

/-- `in_flight()` (local_actor.hpp:580-582): `max_credit_ - open_credit_`
in `uint64_t` arithmetic. -/
def inFlight (s : CreditState) : Nat := sub64 maxCredit s.openCredit

/-- Association-list lookup, mirroring `sources_.find`. -/
def lookupSrc (a : Addr) : List (Addr × Nat) → Option Nat
  | [] => none
  | (b, c) :: rest => if b = a then some c else lookupSrc a rest

/-- Overwrite the credit of the (first) entry for `a`, mirroring
mutation through an iterator into `sources_`. -/
def updateSrc (a : Addr) (v : Nat) : List (Addr × Nat) → List (Addr × Nat)
  | [] => []
  | (b, c) :: rest => if b = a then (b, v) :: rest else (b, c) :: updateSrc a v rest

/-- Remove the entry for `a`, mirroring `sources_.erase(i)`. -/
def eraseSrc (a : Addr) : List (Addr × Nat) → List (Addr × Nat)
  | [] => []
  | (b, c) :: rest => if b = a then rest else (b, c) :: eraseSrc a rest

/-- Dead-source compaction (local_actor.cpp:1246-1258): walk `sources_`,
return dead sources' credit to the open pool and keep live ones. -/
def compact (live : Addr → Bool) (oc : Nat) : List (Addr × Nat) → Nat × List (Addr × Nat)
  | [] => (oc, [])
  | (a, c) :: rest =>
    if live a then
      let (oc2, kept) := compact live oc rest
      (oc2, (a, c) :: kept)
    else
      compact live (w64 (oc + c)) rest

/-- The `while (credit == 0)` loop (local_actor.cpp:1264-1270): starting from
`n` live sources, pop sources from the tail of `src_vec` until
`open_credit / size > 0`.  Returns the surviving vector size, or `none`
when the loop underflows to size zero and divides by zero (undefined
behaviour in the C++). -/
def chooseCount (oc : Nat) : Nat → Option Nat
  | 0 => none
  | n + 1 => if oc / (n + 1) = 0 then chooseCount oc n else some (n + 1)

/-- Add `credit` to each of the first `k` sources (the surviving prefix of
`src_vec`, iterated in lockstep with `sources_` at local_actor.cpp:1275-1286). -/
def addCreditPrefix (credit : Nat) (k : Nat) : List (Addr × Nat) → List (Addr × Nat)
  | [] => []
  | (a, c) :: rest =>
    match k with
    | 0 => (a, c) :: rest
    | k' + 1 => (a, w64 (c + credit)) :: addCreditPrefix credit k' rest

/-- The redistribution tail of `grant_credit` (local_actor.cpp:1243-1288),
entered after the `cause` fast path: compaction, per-source split and the
`(sys, get, credit)` sends.  Returns `none` exactly when the C++ divides
by zero.  The second result component lists the emitted
`(sys, get, n)` messages as `(destination, n)` pairs. -/
def redistribute (live : Addr → Bool) (oc : Nat) (srcs : List (Addr × Nat)) :
    Option (CreditState × List (Addr × Nat)) :=
  if lowWatermark < sub64 maxCredit oc ∨ srcs = [] then
    some (⟨oc, srcs⟩, [])
  else
    let (oc2, kept) := compact live oc srcs
    if kept = [] then some (⟨oc2, kept⟩, [])
    else
      match chooseCount oc2 kept.length with
      | none => none
      | some k =>
        let credit := oc2 / k
        some (⟨sub64 oc2 (w64 (credit * k)), addCreditPrefix credit k kept⟩,
              (kept.take k).map (fun p => (p.1, credit)))

/-- `local_actor::grant_credit(newly_available, cause)`
(local_actor.cpp:1220-1288).  `cause = some a` models an iterator into
`sources_` pointing at `a`; `none` models `sources_.end()`.  The result is
the new ledger plus the `(sys, get, n)` messages sent upstream, or `none`
when the C++ runs into the division by zero of the split loop. -/
def grant_credit (live : Addr → Bool) (newly : Nat) (cause : Option Addr)
    (s : CreditState) : Option (CreditState × List (Addr × Nat)) :=
  let oc := w64 (s.openCredit + newly)
  let above := lowWatermark < sub64 maxCredit oc
  match cause with
  | some a =>
    match lookupSrc a s.sources with
    | some c =>
      let c2 := sub64 c newly
      let srcs1 := updateSrc a c2 s.sources
      if c2 = 0 ∧ above then
        if live a then
          some (⟨0, updateSrc a oc srcs1⟩, [(a, oc)])
        else
          some (⟨oc, srcs1⟩, [])
      else
        redistribute live oc srcs1
    | none => redistribute live oc s.sources
  | none => redistribute live oc s.sources

/-!
## Credit operations performed by the runtime (claim C3)

`filter_msg` performs source registration on `('sys', 'addSource')`
(local_actor.cpp:355-393) and source release on
`('sys', 'delSource', addr)` (local_actor.cpp:395-407); the flow visitor
grants one credit per delivered empty flow-controlled message
(local_actor.cpp:552-559), with the source iterator looked up at
local_actor.cpp:687.
-/

/-- A credit operation of the runtime. -/
inductive CreditOp where
  | addSource (a : Addr)
  | delSource (a : Addr)
  | flowGrant (a : Addr)
  deriving Repr, DecidableEq

/-- Apply one credit operation, returning the new ledger and the emitted
`(sys, get, n)` messages. -/
def applyCreditOp (live : Addr → Bool) (s : CreditState) :
    CreditOp → Option (CreditState × List (Addr × Nat))
  | .addSource a =>
    match lookupSrc a s.sources with
    | some _ => some (s, [])  -- duplicate addSource: logged error, dropped
    | none =>
      -- register with initial credit = open_credit_, then hand the whole
      -- open pool to the new source (local_actor.cpp:366-378)
      let srcs := s.sources ++ [(a, s.openCredit)]
      if 0 < s.openCredit then
        some (⟨0, srcs⟩, [(a, s.openCredit)])
      else
        some (⟨s.openCredit, srcs⟩, [])
  | .delSource a =>
    match lookupSrc a s.sources with
    | none => some (s, [])
    | some c => grant_credit live c none ⟨s.openCredit, eraseSrc a s.sources⟩
  | .flowGrant a => grant_credit live 1 (some a) s

/-- Run a sequence of credit operations from a starting ledger,
collecting all emitted messages. -/
def runCreditOps (live : Addr → Bool) :
    CreditState → List CreditOp → Option (CreditState × List (Addr × Nat))
  | s, [] => some (s, [])
  | s, op :: rest =>
    match applyCreditOp live s op with
    | none => none
    | some (s1, msgs1) =>
      match runCreditOps live s1 rest with
      | none => none
      | some (s2, msgs2) => some (s2, msgs1 ++ msgs2)

/-- Total credit in the ledger: `open_credit_ + Σ sources_[·]`. -/
def creditSum (s : CreditState) : Nat :=
  s.openCredit + (s.sources.map Prod.snd).sum

/-- The initial ledger of a freshly constructed actor
(local_actor.cpp:197-199): `open_credit_ = max_credit_ = 50`, no sources. -/
def initialCredit : CreditState := ⟨maxCredit, []⟩

/-- A run is flow-safe when every `flowGrant` fires at a source that still
holds at least one recorded credit, i.e. sources never deliver more
flow-controlled messages than the credit they were granted. -/
def flowSafe (live : Addr → Bool) : CreditState → List CreditOp → Bool
  | _, [] => true
  | s, op :: rest =>
    (match op with
     | .flowGrant a => decide (1 ≤ (lookupSrc a s.sources).getD 0)
     | _ => true) &&
    (match applyCreditOp live s op with
     | none => true
     | some (s1, _) => flowSafe live s1 rest)

/-! ### Association-list lemmas -/

theorem lookupSrc_le_sum {a : Addr} {c : Nat} :
    ∀ {l : List (Addr × Nat)}, lookupSrc a l = some c →
      c ≤ (l.map Prod.snd).sum := by
  intro l
  induction l with
  | nil => intro h; simp [lookupSrc] at h
  | cons p rest ih =>
    intro h
    simp only [lookupSrc] at h
    by_cases hb : p.1 = a
    · simp [hb] at h
      simp [← h]
    · simp [hb] at h
      have := ih h
      simp
      omega

theorem sum_eraseSrc {a : Addr} {c : Nat} :
    ∀ {l : List (Addr × Nat)}, lookupSrc a l = some c →
      ((eraseSrc a l).map Prod.snd).sum + c = (l.map Prod.snd).sum := by
  intro l
  induction l with
  | nil => intro h; simp [lookupSrc] at h
  | cons p rest ih =>
    intro h
    simp only [lookupSrc] at h
    by_cases hb : p.1 = a
    · simp [hb] at h
      simp [eraseSrc, hb, ← h]
      omega
    · simp [hb] at h
      have := ih h
      simp [eraseSrc, hb]
      omega

theorem sum_updateSrc {a : Addr} {c v : Nat} :
    ∀ {l : List (Addr × Nat)}, lookupSrc a l = some c →
      ((updateSrc a v l).map Prod.snd).sum + c = (l.map Prod.snd).sum + v := by
  intro l
  induction l with
  | nil => intro h; simp [lookupSrc] at h
  | cons p rest ih =>
    intro h
    simp only [lookupSrc] at h
    by_cases hb : p.1 = a
    · simp [hb] at h
      simp [updateSrc, hb, ← h]
      omega
    · simp [hb] at h
      have := ih h
      simp [updateSrc, hb]
      omega

theorem lookupSrc_updateSrc_self {a : Addr} {v : Nat} :
    ∀ {l : List (Addr × Nat)} {c : Nat}, lookupSrc a l = some c →
      lookupSrc a (updateSrc a v l) = some v := by
  intro l
  induction l with
  | nil => intro c h; simp [lookupSrc] at h
  | cons p rest ih =>
    intro c h
    simp only [lookupSrc] at h
    by_cases hb : p.1 = a
    · simp [updateSrc, hb, lookupSrc]
    · simp [hb] at h
      simp [updateSrc, hb, lookupSrc, ih h]

theorem lookupSrc_updateSrc_ne {a b : Addr} {v : Nat} (hne : b ≠ a) :
    ∀ {l : List (Addr × Nat)},
      lookupSrc b (updateSrc a v l) = lookupSrc b l := by
  intro l
  induction l with
  | nil => simp [updateSrc, lookupSrc]
  | cons p rest ih =>
    obtain ⟨pa, pc⟩ := p
    by_cases hb : pa = a
    · have hpb : ¬ pa = b := by rw [hb]; exact fun h => hne h.symm
      have hab : ¬ a = b := fun h => hne h.symm
      simp [updateSrc, hb, lookupSrc, hpb, hab]
    · simp [updateSrc, hb, lookupSrc]
      by_cases hc : pa = b
      · simp [hc]
      · simp [hc, ih]

theorem updateSrc_updateSrc {a : Addr} {v w : Nat} :
    ∀ {l : List (Addr × Nat)},
      updateSrc a v (updateSrc a w l) = updateSrc a v l := by
  intro l
  induction l with
  | nil => simp [updateSrc]
  | cons p rest ih =>
    by_cases hb : p.1 = a
    · simp [updateSrc, hb]
    · simp [updateSrc, hb, ih]

/-! ### Compaction, split-loop and redistribution lemmas -/

/-- With no source deaths, compaction is the identity. -/
theorem compact_all_live (oc : Nat) :
    ∀ (l : List (Addr × Nat)), compact (fun _ => true) oc l = (oc, l) := by
  intro l
  induction l with
  | nil => simp [compact]
  | cons p rest ih => simp [compact, ih]

theorem compact_fst_bounds (live : Addr → Bool) {oc : Nat} :
    ∀ {l : List (Addr × Nat)}, oc + (l.map Prod.snd).sum < U64 →
      oc ≤ (compact live oc l).1 ∧
      (compact live oc l).1 ≤ oc + (l.map Prod.snd).sum := by
  intro l
  induction l generalizing oc with
  | nil => intro _; simp [compact]
  | cons p rest ih =>
    intro h
    simp only [List.map_cons, List.sum_cons] at h
    by_cases hl : live p.1
    · have := @ih oc (by omega)
      simp only [compact, hl, if_true]
      constructor
      · exact this.1
      · simp only [List.map_cons, List.sum_cons]; omega
    · simp only [compact, hl, if_false, Bool.false_eq_true]
      have hw : w64 (oc + p.2) = oc + p.2 := w64_eq_of_lt (by omega)
      rw [hw]
      have := @ih (oc + p.2) (by omega)
      simp only [List.map_cons, List.sum_cons]
      omega

theorem chooseCount_bounds {oc : Nat} :
    ∀ {n k : Nat}, chooseCount oc n = some k → 1 ≤ k ∧ k ≤ n ∧ 1 ≤ oc / k := by
  intro n
  induction n with
  | zero => intro k h; simp [chooseCount] at h
  | succ m ih =>
    intro k h
    simp only [chooseCount] at h
    by_cases hz : oc / (m + 1) = 0
    · simp [hz] at h
      obtain ⟨h1, h2, h3⟩ := ih h
      exact ⟨h1, by omega, h3⟩
    · simp [hz] at h
      subst h
      exact ⟨by omega, le_refl _, Nat.pos_of_ne_zero hz⟩

theorem chooseCount_pos (oc : Nat) (hoc : 1 ≤ oc) :
    ∀ {n : Nat}, 1 ≤ n → ∃ k, chooseCount oc n = some k := by
  intro n
  induction n with
  | zero => omega
  | succ m ih =>
    intro _
    by_cases hz : oc / (m + 1) = 0
    · have hm : 1 ≤ m := by
        by_contra hm
        have : m = 0 := by omega
        subst this
        simp at hz
        omega
      obtain ⟨k, hk⟩ := ih hm
      exact ⟨k, by simp [chooseCount, hz, hk]⟩
    · exact ⟨m + 1, by simp [chooseCount, hz]⟩

theorem sum_addCreditPrefix {credit : Nat} :
    ∀ {k : Nat} {l : List (Addr × Nat)}, k ≤ l.length →
      (l.map Prod.snd).sum + credit < U64 →
      ((addCreditPrefix credit k l).map Prod.snd).sum
        = (l.map Prod.snd).sum + credit * k := by
  intro k l
  induction l generalizing k with
  | nil =>
    intro hk _
    have : k = 0 := by simpa using hk
    subst this
    simp [addCreditPrefix]
  | cons p rest ih =>
    intro hk hb
    match k with
    | 0 => simp [addCreditPrefix]
    | k' + 1 =>
      simp only [List.map_cons, List.sum_cons] at hb
      simp only [addCreditPrefix, List.map_cons, List.sum_cons]
      have hw : w64 (p.2 + credit) = p.2 + credit := w64_eq_of_lt (by omega)
      rw [hw, ih (by simpa using hk) (by omega)]
      ring

/-- Credit conservation of the redistribution tail, in the absence of
source deaths and of `uint64_t` wrap-around. -/
theorem redistribute_sum {oc : Nat} {srcs : List (Addr × Nat)}
    {s2 : CreditState} {msgs : List (Addr × Nat)}
    (hb : oc + (srcs.map Prod.snd).sum < U64)
    (h : redistribute (fun _ => true) oc srcs = some (s2, msgs)) :
    s2.openCredit + (s2.sources.map Prod.snd).sum
      = oc + (srcs.map Prod.snd).sum := by
  unfold redistribute at h
  split at h
  · obtain ⟨h1, h2⟩ := Prod.mk.injEq .. ▸ (Option.some.injEq .. ▸ h)
    subst h1
    rfl
  · rw [compact_all_live] at h
    simp only at h
    split at h
    · obtain ⟨h1, _⟩ := Prod.mk.injEq .. ▸ (Option.some.injEq .. ▸ h)
      subst h1
      rfl
    · split at h
      · exact absurd h (by simp)
      · rename_i k hk
        obtain ⟨h1, _⟩ := Prod.mk.injEq .. ▸ (Option.some.injEq .. ▸ h)
        subst h1
        obtain ⟨hk1, hk2, _⟩ := chooseCount_bounds hk
        simp only
        have hdm : oc / k * k ≤ oc := Nat.div_mul_le_self oc k
        have hw : w64 (oc / k * k) = oc / k * k := w64_eq_of_lt (by omega)
        rw [hw, sub64_eq_sub (by omega) hdm,
            sum_addCreditPrefix hk2 (by have := Nat.div_le_self oc k; omega)]
        omega


/-!
## Claim C1: the `cause` fast path of `grant_credit`
-/

/-- Claim C1, as stated, is false on the code: here `cause`
(source 1) is live and registered, its credit reaches 0 after the
decrement, and the ledger is NOT above the low watermark
(`in_flight = 7 ≤ 10`), yet `grant_credit` does not re-seed the cause with
all of `open_credit` and return; it falls through to the general
redistribution, sending `(sys, get, 21)` to BOTH sources and leaving
`open_credit = 1`.  The code takes the fast path only when the ledger is
ABOVE the watermark (local_actor.cpp:1230). -/
theorem grant_credit_reseed_cex :
    -- the claim's hypotheses hold at this input:
    (sub64 3 3 = 0 ∧ sub64 maxCredit (w64 (40 + 3)) ≤ lowWatermark) ∧
    -- what the code actually does:
    grant_credit (fun _ => true) 3 (some 1) ⟨40, [(1, 3), (2, 5)]⟩
      = some (⟨1, [(1, 21), (2, 26)]⟩, [(1, 21), (2, 21)]) ∧
    -- which is not the claimed outcome (re-seed source 1 with 43,
    -- send (sys, get, 43) only to it, zero open_credit, leave source 2):
    grant_credit (fun _ => true) 3 (some 1) ⟨40, [(1, 3), (2, 5)]⟩
      ≠ some (⟨0, [(1, 43), (2, 5)]⟩, [(1, 43)]) := by
  refine ⟨by decide, by decide, by decide⟩

/-- Claim C1 amended: when `cause` is a live registered source whose credit
reaches 0 after the decrement and the ledger IS above the low watermark
(`in_flight > low_watermark`), the cause is re-seeded with all of
`open_credit`, a single `(sys, get, open_credit)` message goes to it,
`open_credit` becomes 0, and no other source is touched
(local_actor.cpp:1228-1241). -/
theorem grant_credit_reseeds_exhausted_cause (live : Addr → Bool)
    (newly : Nat) (a : Addr) (s : CreditState) (c : Nat)
    (hfind : lookupSrc a s.sources = some c)
    (hzero : sub64 c newly = 0)
    (habove : lowWatermark < sub64 maxCredit (w64 (s.openCredit + newly)))
    (hlive : live a = true) :
    grant_credit live newly (some a) s
      = some (⟨0, updateSrc a (w64 (s.openCredit + newly)) s.sources⟩,
              [(a, w64 (s.openCredit + newly))]) ∧
    ∀ b, b ≠ a →
      lookupSrc b (updateSrc a (w64 (s.openCredit + newly)) s.sources)
        = lookupSrc b s.sources := by
  constructor
  · simp only [grant_credit, hfind, hzero, habove, hlive, and_self, and_true,
      if_true, updateSrc_updateSrc]
  · intro b hb
    exact lookupSrc_updateSrc_ne hb

/-- Witness for `grant_credit_reseeds_exhausted_cause` at a concrete
ledger: source 1 holds 2 credits, `grant_credit(2, source 1)` with
`open_credit = 5` re-seeds it with 7 and emits `(sys, get, 7)` to it
alone. -/
theorem grant_credit_reseeds_exhausted_cause_witness :
    grant_credit (fun _ => true) 2 (some 1) ⟨5, [(1, 2), (2, 7)]⟩
      = some (⟨0, updateSrc 1 (w64 (5 + 2)) [(1, 2), (2, 7)]⟩,
              [(1, w64 (5 + 2))]) :=
  (grant_credit_reseeds_exhausted_cause (fun _ => true) 2 1
    ⟨5, [(1, 2), (2, 7)]⟩ 2 (by decide) (by decide) (by decide) rfl).1

/-!
## Claim C2: watermark gating and the split loop of `grant_credit`
-/

/-- Claim C2, as stated over every actor state, is false on the code: in
this ledger `in_flight = 10 ≤ low_watermark` and source 2 is live (source
1 is dead), yet `grant_credit(0, none)` runs into the division by zero of
the split loop (local_actor.cpp:1264-1270), because compacting the dead
source 1 wraps `open_credit` to 0 in `uint64_t` (40 + (2^64 - 40)).  The
state is reachable only through sources that emit beyond their granted
credit and then die. -/
theorem grant_credit_progress_cex :
    -- the claim's hypotheses hold at this input:
    inFlight ⟨40, [(1, 18446744073709551576), (2, 5)]⟩ ≤ lowWatermark ∧
    (compact (fun a => a == 2) 40 [(1, 18446744073709551576), (2, 5)]).2
      = [(2, 5)] ∧
    -- yet the call does not terminate normally:
    grant_credit (fun a => a == 2) 0 none
      ⟨40, [(1, 18446744073709551576), (2, 5)]⟩ = none := by
  refine ⟨by decide, by decide, by decide⟩

/-- Claim C2 amended: for every ledger whose total content does not exceed
`max_credit` (the stable-state invariant), if `in_flight ≤ low_watermark`
and at least one registered source survives dead-source compaction, then
`grant_credit(0, none)` terminates normally and emits at least one
`(sys, get, n)` message with `n ≥ 1`. -/
theorem grant_credit_watermark_progress (live : Addr → Bool)
    (s : CreditState)
    (hb : creditSum s ≤ maxCredit)
    (hwm : inFlight s ≤ lowWatermark)
    (hlive : (compact live s.openCredit s.sources).2 ≠ []) :
    ∃ s2 msgs, grant_credit live 0 none s = some (s2, msgs) ∧
      msgs ≠ [] ∧ ∀ m ∈ msgs, 1 ≤ m.2 := by
  have hoc_le : s.openCredit ≤ 50 := by
    have : s.openCredit ≤ creditSum s := Nat.le_add_right _ _
    unfold maxCredit at hb
    omega
  have hwm2 : sub64 50 s.openCredit ≤ 10 := hwm
  rw [sub64_eq_sub (by unfold U64; omega) hoc_le] at hwm2
  have hoc_ge : 40 ≤ s.openCredit := by omega
  have hsum : (s.sources.map Prod.snd).sum ≤ 50 := by
    have : (s.sources.map Prod.snd).sum ≤ creditSum s := Nat.le_add_left _ _
    unfold maxCredit at hb
    omega
  have hw0 : w64 (s.openCredit + 0) = s.openCredit :=
    w64_eq_of_lt (by unfold U64; omega)
  have hnabove : ¬ lowWatermark < sub64 maxCredit s.openCredit := by
    rw [show sub64 maxCredit s.openCredit = 50 - s.openCredit from
      sub64_eq_sub (by decide) (by unfold maxCredit; omega)]
    unfold lowWatermark
    omega
  have hne : s.sources ≠ [] := by
    intro hnil
    rw [hnil] at hlive
    simp [compact] at hlive
  have hcb : s.openCredit + (s.sources.map Prod.snd).sum < U64 := by
    unfold U64
    omega
  obtain ⟨hcl, hcu⟩ := compact_fst_bounds live hcb
  obtain ⟨oc2, kept, hck⟩ :
      ∃ oc2 kept, compact live s.openCredit s.sources = (oc2, kept) :=
    ⟨_, _, rfl⟩
  rw [hck] at hcl hcu hlive
  simp only at hcl hcu hlive
  have hkl : 1 ≤ kept.length := by
    cases kept with
    | nil => exact absurd rfl hlive
    | cons x xs => simp
  obtain ⟨k, hk⟩ := chooseCount_pos oc2 (by omega) hkl
  obtain ⟨hk1, hk2, hk3⟩ := chooseCount_bounds hk
  refine ⟨⟨sub64 oc2 (w64 (oc2 / k * k)), addCreditPrefix (oc2 / k) k kept⟩,
          (kept.take k).map (fun p => (p.1, oc2 / k)), ?_, ?_, ?_⟩
  · unfold grant_credit
    simp only
    rw [hw0]
    unfold redistribute
    rw [if_neg (not_or.mpr ⟨hnabove, hne⟩), hck]
    simp only
    rw [if_neg hlive, hk]
  · -- the message list (kept.take k).map ... is nonempty
    have : (kept.take k).length = k := by
      rw [List.length_take]
      omega
    intro hmnil
    rw [List.map_eq_nil_iff] at hmnil
    rw [hmnil] at this
    simp at this
    omega
  · intro m hm
    rw [List.mem_map] at hm
    obtain ⟨p, _, hp⟩ := hm
    rw [← hp]
    exact hk3

/-- Witness for `grant_credit_watermark_progress`: `open_credit = 40`,
two live sources with credits 0 and 2 (`in_flight = 10`), all sources
live; the call emits `(sys, get, 20)` to both. -/
theorem grant_credit_watermark_progress_witness :
    ∃ s2 msgs,
      grant_credit (fun _ => true) 0 none ⟨40, [(1, 0), (2, 2)]⟩
        = some (s2, msgs) ∧ msgs ≠ [] ∧ ∀ m ∈ msgs, 1 ≤ m.2 :=
  grant_credit_watermark_progress (fun _ => true) ⟨40, [(1, 0), (2, 2)]⟩
    (by decide) (by decide) (by decide)

/-!
## Claim C3: credit conservation
-/

/-- Claim C3, as stated, is false on the code even without source deaths:
registering source 2 while `open_credit = 0` gives it 0 initial credit;
a single flow-controlled message from it then makes
`cause->second -= 1` wrap around in `uint64_t` (local_actor.cpp:1229),
after which `open_credit + Σ sources[·] = 2^64 + 50 ≠ 50 = max_credit`. -/
theorem credit_conservation_cex :
    runCreditOps (fun _ => true) initialCredit
        [.addSource 1, .addSource 2, .flowGrant 2]
      = some (⟨1, [(1, 50), (2, 18446744073709551615)]⟩, [(1, 50)]) ∧
    creditSum ⟨1, [(1, 50), (2, 18446744073709551615)]⟩ ≠ maxCredit := by
  refine ⟨by decide, by decide⟩

/-- Conservation of one `grant_credit` call with `cause = none` (the
`delSource` path), in the absence of source deaths and of wrap-around. -/
theorem grant_credit_none_sum {n : Nat} {s : CreditState}
    {s2 : CreditState} {msgs : List (Addr × Nat)}
    (hb : s.openCredit + n + (s.sources.map Prod.snd).sum < U64)
    (h : grant_credit (fun _ => true) n none s = some (s2, msgs)) :
    creditSum s2 = s.openCredit + n + (s.sources.map Prod.snd).sum := by
  unfold grant_credit at h
  simp only at h
  rw [w64_eq_of_lt (x := s.openCredit + n) (by omega)] at h
  have := redistribute_sum (by omega) h
  unfold creditSum
  omega

/-- One runtime credit operation preserves `open_credit + Σ sources[·]`
when the invariant held before and, for a flow grant, the source still
holds at least one credit. -/
theorem applyCreditOp_sum {s s2 : CreditState} {op : CreditOp}
    {msgs : List (Addr × Nat)}
    (hinv : creditSum s = maxCredit)
    (hsafe : ∀ a, op = .flowGrant a → 1 ≤ (lookupSrc a s.sources).getD 0)
    (h : applyCreditOp (fun _ => true) s op = some (s2, msgs)) :
    creditSum s2 = maxCredit := by
  unfold creditSum maxCredit at hinv
  have hU : (50 : Nat) < U64 := by decide
  cases op with
  | addSource a =>
    simp only [applyCreditOp] at h
    cases hfind : lookupSrc a s.sources with
    | some c =>
      rw [hfind] at h
      simp only [Option.some.injEq, Prod.mk.injEq] at h
      rw [← h.1]
      unfold creditSum maxCredit
      omega
    | none =>
      rw [hfind] at h
      simp only at h
      by_cases hoc : 0 < s.openCredit
      · rw [if_pos hoc] at h
        simp only [Option.some.injEq, Prod.mk.injEq] at h
        rw [← h.1]
        unfold creditSum maxCredit
        simp
        omega
      · rw [if_neg hoc] at h
        simp only [Option.some.injEq, Prod.mk.injEq] at h
        rw [← h.1]
        unfold creditSum maxCredit
        simp
        omega
  | delSource a =>
    simp only [applyCreditOp] at h
    cases hfind : lookupSrc a s.sources with
    | none =>
      rw [hfind] at h
      simp only [Option.some.injEq, Prod.mk.injEq] at h
      rw [← h.1]
      unfold creditSum maxCredit
      omega
    | some c =>
      rw [hfind] at h
      simp only at h
      have hc := lookupSrc_le_sum hfind
      have herase := sum_eraseSrc hfind
      have := grant_credit_none_sum
        (s := ⟨s.openCredit, eraseSrc a s.sources⟩) (n := c)
        (by simp only; unfold U64; omega) h
      unfold creditSum at this ⊢
      unfold maxCredit
      simp only at this
      omega
  | flowGrant a =>
    have hsafe2 := hsafe a rfl
    cases hfind : lookupSrc a s.sources with
    | none => rw [hfind] at hsafe2; simp at hsafe2
    | some c =>
      rw [hfind] at hsafe2
      simp only [Option.getD_some] at hsafe2
      have hc := lookupSrc_le_sum hfind
      simp only [applyCreditOp, grant_credit, hfind] at h
      have hw1 : w64 (s.openCredit + 1) = s.openCredit + 1 :=
        w64_eq_of_lt (by unfold U64; omega)
      have hc2 : sub64 c 1 = c - 1 :=
        sub64_eq_sub (by unfold U64; omega) hsafe2
      rw [hw1, hc2] at h
      have hupd := sum_updateSrc (v := c - 1) hfind
      by_cases hcond : c - 1 = 0 ∧
          lowWatermark < sub64 maxCredit (s.openCredit + 1)
      · rw [if_pos hcond, if_pos trivial] at h
        simp only [Option.some.injEq, Prod.mk.injEq] at h
        rw [← h.1]
        unfold creditSum maxCredit
        simp only
        rw [updateSrc_updateSrc]
        have := sum_updateSrc (v := s.openCredit + 1) hfind
        omega
      · rw [if_neg hcond] at h
        have hbnd : s.openCredit + 1
            + ((updateSrc a (c - 1) s.sources).map Prod.snd).sum < U64 := by
          omega
        have := redistribute_sum hbnd h
        unfold creditSum maxCredit
        omega

/-- Conservation over any flow-safe run, from any conserved ledger. -/
theorem runCreditOps_sum {ops : List CreditOp} :
    ∀ {s s2 : CreditState} {msgs : List (Addr × Nat)},
      creditSum s = maxCredit →
      flowSafe (fun _ => true) s ops = true →
      runCreditOps (fun _ => true) s ops = some (s2, msgs) →
      creditSum s2 = maxCredit := by
  induction ops with
  | nil =>
    intro s s2 msgs hinv _ hrun
    unfold runCreditOps at hrun
    simp only [Option.some.injEq, Prod.mk.injEq] at hrun
    rw [← hrun.1]
    exact hinv
  | cons op rest ih =>
    intro s s2 msgs hinv hsafe hrun
    unfold runCreditOps at hrun
    cases happ : applyCreditOp (fun _ => true) s op with
    | none => rw [happ] at hrun; simp at hrun
    | some r =>
      obtain ⟨s1, msgs1⟩ := r
      rw [happ] at hrun
      simp only at hrun
      cases hrest : runCreditOps (fun _ => true) s1 rest with
      | none => rw [hrest] at hrun; simp at hrun
      | some r2 =>
        obtain ⟨s2x, msgs2⟩ := r2
        rw [hrest] at hrun
        simp only [Option.some.injEq, Prod.mk.injEq] at hrun
        unfold flowSafe at hsafe
        rw [happ] at hsafe
        rw [Bool.and_eq_true] at hsafe
        have hinv1 : creditSum s1 = maxCredit := by
          refine applyCreditOp_sum hinv ?_ happ
          intro a hop
          subst hop
          have := hsafe.1
          simp only [decide_eq_true_eq] at this
          exact this
        have := ih hinv1 hsafe.2 hrest
        rw [← hrun.1]
        exact this

/-- Claim C3 amended: starting from the initial ledger
(`open_credit = max_credit = 50`, no sources), in the absence of source
deaths, `open_credit + Σ sources[·] = max_credit` holds after any finite
sequence of `addSource`, `delSource` and `flowGrant` operations, provided
each flow-controlled grant fires at a source that still holds at least
one recorded credit (i.e. sources never deliver more messages than the
credit they were granted). -/
theorem credit_conservation (ops : List CreditOp)
    (s2 : CreditState) (msgs : List (Addr × Nat))
    (hsafe : flowSafe (fun _ => true) initialCredit ops = true)
    (hrun : runCreditOps (fun _ => true) initialCredit ops
              = some (s2, msgs)) :
    creditSum s2 = maxCredit :=
  runCreditOps_sum (by decide) hsafe hrun

/-- Witness for `credit_conservation`: register source 1, then one
flow-controlled delivery from it; the ledger still sums to 50. -/
theorem credit_conservation_witness :
    creditSum ⟨1, [(1, 49)]⟩ = maxCredit :=
  credit_conservation [.addSource 1, .flowGrant 1]
    ⟨1, [(1, 49)]⟩ [(1, 50)] (by decide) (by decide)

/-!
## Message model

`message_id` is a 64-bit tagged value (caf/message_id.hpp is not part of
this tree); modelled from the spec as a record of its tag bits
{request / response, priority, flow-controlled, answered} plus the
sequence number.  `message_id::make()` is the invalid (all-zero) id and
`valid()` means "not the all-zero id".
-/

structure MsgId where
  resp : Bool := false
  req : Bool := false
  highPrio : Bool := false
  flow : Bool := false
  answered : Bool := false
  seq : Nat := 0
  deriving Repr, DecidableEq

/-- `message_id::make()` / `invalid_message_id`. -/
def MsgId.make : MsgId := {}

/-- `message_id::valid()`: the underlying 64-bit value is nonzero. -/
def MsgId.valid (m : MsgId) : Bool := m ≠ MsgId.make

/-- Modelled from the spec: `response_id(request_id)` is deterministic and
unique per request; for a non-request it yields the invalid id
(`get_response_id`, local_actor.hpp:451-454). -/
def MsgId.responseId (m : MsgId) : MsgId :=
  if m.req then { m with resp := true, req := false, answered := false }
  else MsgId.make

/-- Symbolic error / exit-reason codes (`sec` and `exit_reason` values). -/
def killReason : Nat := 1
def unexpectedMessageErr : Nat := 2
def unexpectedResponseErr : Nat := 3
def requestTimeoutErr : Nat := 4
def unsupportedSysKeyErr : Nat := 5

/-- Type-erased payloads, by the type tokens `filter_msg` dispatches on
(local_actor.cpp:332-460).  `user` stands for any other tuple; its
`isEmpty` flag models `message::empty()`. -/
inductive Payload where
  | sysGetStr (what : String)
  | sysAddSource
  | sysDelSource (a : Addr)
  | sysGetNum (n : Nat)
  | timeoutMsg (tid : Nat)
  | exitMsg (src : Addr) (reason : Option Nat)
  | downMsg (src : Addr)
  | errMsg (e : Nat)
  | syncTimeoutMsg
  | infoReply
  | user (tag : Nat) (isEmpty : Bool)
  deriving Repr, DecidableEq

/-- A mailbox element (`mailbox_element`): sender, message id, stages and
payload. -/
structure Envelope where
  sender : Option Addr := none
  mid : MsgId := MsgId.make
  stages : List Addr := []
  payload : Payload := .user 0 true
  deriving Repr, DecidableEq

/-- `mailbox_element::is_high_priority()`: the priority bit of the id. -/
def Envelope.isHighPriority (e : Envelope) : Bool := e.mid.highPrio

/-- The value a matched handler hands to the invoke-result visitor:
an error, a message (empty or not), or no value (`none_t`). -/
inductive HandlerResult where
  | err (e : Nat)
  | msg (isEmpty : Bool) (tag : Nat)
  | noValue
  deriving Repr, DecidableEq

/-- Outcome of running a behavior on a payload (`match_case::result`):
matched with a result handed to the visitor, skipped, or no match. -/
inductive BOutcome where
  | ret (r : HandlerResult)
  | skip
  | noMatch

/-- A behavior: a match function with an optional timeout duration
(`none` models an invalid `duration`).  Behavior identity (the
`bhvr_stack_.back() != bhvr` comparison in `handle_timeout`,
local_actor.cpp:303) is modelled by the `tag` field. -/
structure Behavior where
  tag : Nat := 0
  timeoutDur : Option Nat := none
  run : Payload → BOutcome := fun _ => .noMatch

/-- The default-constructed empty behavior used by `exec_event`
(local_actor.cpp:1000). -/
def emptyBehavior : Behavior := {}

/-- Observable effects emitted by the actor core. -/
inductive Event where
  | send (dest : Addr) (mid : MsgId) (p : Payload)
  | delayedSend (delay : Nat) (dest : Addr) (mid : MsgId) (p : Payload)
  | bounce (dest : Addr) (reqId : MsgId) (reason : Option Nat)
  | invokeHandler (tag : Nat) (p : Payload)
  | invokeTimeoutHandler (tag : Nat)
  | scheduleSelf
  | shutdownPrivateThread
  | attachDeathNotifier (src : Addr)
  | generatorInvoked (sink : Addr) (upTo : Nat)
  | unlink (src : Addr)
  deriving Repr, DecidableEq

/-- The three states of the MPSC mailbox relevant to enqueueing
(`detail::enqueue_result`): a running reader (`success`), a blocked
reader (`unblocked_reader` transition), and a closed queue
(`queue_closed`). -/
inductive MailboxStatus where
  | running
  | blocked
  | closed
  deriving Repr, DecidableEq

/-- Classification produced by `filter_msg` (local_actor.hpp:666-672). -/
inductive MsgType where
  | expiredTimeout
  | timeout
  | ordinary
  | response
  | sysMessage
  deriving Repr, DecidableEq

/-- `invoke_message_result`. -/
inductive InvokeResult where
  | success
  | skipped
  | dropped
  deriving Repr, DecidableEq

/-- `resumable::resume_result` (the `shutdown_execution_unit` value is
never produced by `local_actor::resume`). -/
inductive ResumeResult where
  | done
  | resumeLater
  | awaitingMessage
  deriving Repr, DecidableEq

/-!
## Actor state

The fields of `local_actor` (local_actor.hpp:598-681) that the claims
touch.  The mailbox is the pending FIFO of a single producer plus the
two cache segments owned by the reader; `mstatus` is the
blocked/running/closed state of the `single_reader_queue`.
`initBehavior` models the initial behavior factory consumed by the pure
virtual `initialize()` of event-based subclasses.  The unexpected-message,
error, down and exit handlers are the defaults installed by the
constructor (local_actor.cpp:193-196).
-/

structure Actor where
  selfAddr : Addr := 0
  initialized : Bool := false
  terminated : Bool := false
  cleanedUp : Bool := false
  registered : Bool := false
  detached : Bool := false
  blocking : Bool := false
  priorityAware : Bool := false
  context : Option Nat := none
  mbox : List Envelope := []
  mstatus : MailboxStatus := .running
  cacheFirst : List Envelope := []
  cacheSecond : List Envelope := []
  bhvrStack : List Behavior := []
  awaited : List (MsgId × Behavior) := []
  multiplexed : List (MsgId × Behavior) := []
  currentElement : Option Envelope := none
  timeoutId : Nat := 0
  hasTimeout : Bool := false
  lastRequestId : Nat := 0
  credit : CreditState := initialCredit
  generators : List Addr := []
  subscriptions : List Nat := []
  failState : Option Nat := none
  initBehavior : Option Behavior := none

/-- A fresh default actor. -/
def actor0 : Actor := {}

/-- `has_behavior()` (local_actor.hpp:495-499). -/
def hasBehavior (a : Actor) : Bool :=
  !a.bhvrStack.isEmpty || !a.awaited.isEmpty || !a.multiplexed.isEmpty

/-- `is_active_timeout(tid)` (local_actor.cpp:319-321). -/
def isActiveTimeout (a : Actor) (tid : Nat) : Bool :=
  a.hasTimeout && a.timeoutId == tid

/-- `quit(error)` (local_actor.cpp:1212-1218); the blocking-actor throw is
outside this model (`resume` asserts the actor is not blocking). -/
def quit (x : Option Nat) (a : Actor) : Actor :=
  { a with failState := x, terminated := true }

/-- `awaits_response()` (local_actor.cpp:750-752). -/
def awaitsResponse (a : Actor) : Bool := !a.awaited.isEmpty

/-- `awaited_response_id()` (local_actor.cpp:783-787). -/
def awaited_response_id (a : Actor) : MsgId :=
  match a.awaited with
  | [] => MsgId.make
  | pr :: _ => pr.1

/-- First entry for `mid` in a response table (`find_awaited_response`,
local_actor.cpp:761-769, and `find_multiplexed_response`,
local_actor.cpp:800-806). -/
def findResp (mid : MsgId) : List (MsgId × Behavior) → Option Behavior
  | [] => none
  | pr :: rest => if pr.1 = mid then some pr.2 else findResp mid rest

/-- Replace the behavior of the (first) entry for `mid`. -/
def updateResp (mid : MsgId) (b : Behavior) :
    List (MsgId × Behavior) → List (MsgId × Behavior)
  | [] => []
  | pr :: rest =>
    if pr.1 = mid then (pr.1, b) :: rest else pr :: updateResp mid b rest

/-- `mark_awaited_arrived(mid)` (local_actor.cpp:744-748):
`remove_if` over the awaited list. -/
def mark_awaited_arrived (mid : MsgId) (a : Actor) : Actor :=
  { a with awaited := a.awaited.filter (fun pr => pr.1 != mid) }

/-- `mark_multiplexed_arrived(mid)` (local_actor.cpp:789-792): erase from
the map (keys are unique, so a filter). -/
def mark_multiplexed_arrived (mid : MsgId) (a : Actor) : Actor :=
  { a with multiplexed := a.multiplexed.filter (fun pr => pr.1 != mid) }

/-- `set_awaited_response_handler` (local_actor.cpp:771-777): update in
place if present, else push front (LIFO). -/
def set_awaited_response_handler (mid : MsgId) (b : Behavior) (a : Actor) :
    Actor :=
  if (findResp mid a.awaited).isSome then
    { a with awaited := updateResp mid b a.awaited }
  else
    { a with awaited := (mid, b) :: a.awaited }

/-- `request_sync_timeout_msg(d, mid)` (local_actor.cpp:289-297): schedule
a `sec::request_timeout` error as the response to `mid`. -/
def request_sync_timeout_msg (d : Option Nat) (mid : MsgId) (a : Actor) :
    List Event :=
  match d with
  | none => []
  | some dur =>
    [.delayedSend dur a.selfAddr mid.responseId (.errMsg requestTimeoutErr)]

/-- `set_multiplexed_response_handler` (local_actor.cpp:808-817). -/
def set_multiplexed_response_handler (mid : MsgId) (b : Behavior)
    (a : Actor) : Actor × List Event :=
  let evs := request_sync_timeout_msg b.timeoutDur mid a
  if (findResp mid a.multiplexed).isSome then
    ({ a with multiplexed := updateResp mid b a.multiplexed }, evs)
  else
    ({ a with multiplexed := a.multiplexed ++ [(mid, b)] }, evs)

/-!
## Enqueue, timeouts and filtering
-/

/-- `local_actor::enqueue` (local_actor.cpp:872-905).  Pushing to the
mailbox yields `success` on a running reader, `unblocked_reader` on a
blocked one (reschedule: private-thread resume or scheduler submit, both
`scheduleSelf` here), and `queue_closed` after cleanup, in which case a
request id is bounced with the actor's exit reason
(`detail::sync_request_bouncer`, modelled from the spec: it delivers a
synthetic error response carrying the fail state to the sender). -/
def enqueue (env : Envelope) (a : Actor) : Actor × List Event :=
  match a.mstatus with
  | .running => ({ a with mbox := a.mbox ++ [env] }, [])
  | .blocked =>
    ({ a with mbox := a.mbox ++ [env], mstatus := .running }, [.scheduleSelf])
  | .closed =>
    (a,
     if env.mid.req then
       match env.sender with
       | some snd => [.bounce snd env.mid a.failState]
       | none => []
     else [])

/-- `request_timeout(d)` (local_actor.cpp:271-287): invalid duration
clears the timeout; otherwise `timeout_id_` is incremented twice
(`uint32_t`), the returned id is the first increment and the message
carries the second, which is also the stored active id.  A zero duration
self-enqueues the timeout message immediately; otherwise it goes through
the scheduler's `delayed_send`. -/
def request_timeout (d : Option Nat) (a : Actor) : Nat × Actor × List Event :=
  match d with
  | none => (0, { a with hasTimeout := false }, [])
  | some dur =>
    let result := w32 (a.timeoutId + 1)
    let newTid := w32 (a.timeoutId + 2)
    let a1 := { a with hasTimeout := true, timeoutId := newTid }
    let env : Envelope :=
      ⟨some a1.selfAddr, MsgId.make, [], .timeoutMsg newTid⟩
    if dur = 0 then
      let (a2, evs) := enqueue env a1
      (result, a2, evs)
    else
      (result, a1,
       [.delayedSend dur a1.selfAddr MsgId.make (.timeoutMsg newTid)])

/-- `reset_timeout(tid)` (local_actor.cpp:313-317). -/
def reset_timeout (tid : Nat) (a : Actor) : Actor :=
  if isActiveTimeout a tid then { a with hasTimeout := false } else a

/-- `handle_timeout(bhvr, tid)` (local_actor.cpp:299-311): only the active
timeout fires the behavior's timeout handler; blocking actors then
auto-remove the top behavior when it is the one that timed out. -/
def handle_timeout (b : Behavior) (tid : Nat) (a : Actor) :
    Actor × List Event :=
  if !isActiveTimeout a tid then (a, [])
  else
    let evs := [Event.invokeTimeoutHandler b.tag]
    if a.bhvrStack.isEmpty
        || ((a.bhvrStack.getLast?.map Behavior.tag) != some b.tag) then
      (a, evs)
    else if a.blocking then
      ({ a with bhvrStack := a.bhvrStack.dropLast }, evs)
    else
      (a, evs)

/-- `do_become(bhvr, discard_old)` (local_actor.cpp:1145-1152). -/
def do_become (b : Behavior) (discardOld : Bool) (a : Actor) :
    Actor × List Event :=
  let a1 := if discardOld then { a with bhvrStack := a.bhvrStack.dropLast }
            else a
  let (_, a2, evs) := request_timeout b.timeoutDur a1
  ({ a2 with bhvrStack := a2.bhvrStack ++ [b] }, evs)

/-- `filter_msg` (local_actor.cpp:327-461): classify the envelope and
perform the system-message side effects.  The error, down and exit
handlers are the defaults installed by the constructor
(local_actor.cpp:170-183).  The result is `none` only when the
`delSource` path runs into the division by zero inside `grant_credit`.
The generator functor bodies registered by `new_stream`
(local_actor.hpp:391-413) are user code; their invocation is modelled by
the `generatorInvoked` event. -/
def filter_msg (live : Addr → Bool) (x : Envelope) (a : Actor) :
    Option (MsgType × Actor × List Event) :=
  if x.mid.resp then some (.response, a, [])
  else
    match x.payload with
    | .sysGetStr what =>
      -- reply to the sender; "info" is the only supported key
      let reply : Payload :=
        if what = "info" then .infoReply else .errMsg unsupportedSysKeyErr
      let evs :=
        match x.sender with
        | some snd => [Event.send snd x.mid.responseId reply]
        | none => []
      some (.sysMessage, a, evs)
    | .sysAddSource =>
      match x.sender with
      | none => some (.sysMessage, a, [])       -- anonymous: logged error
      | some snd =>
        if !x.stages.isEmpty then some (.sysMessage, a, [])
        else
          match lookupSrc snd a.credit.sources with
          | some _ => some (.sysMessage, a, []) -- duplicate: logged error
          | none =>
            let oc := a.credit.openCredit
            let srcs := a.credit.sources ++ [(snd, oc)]
            if 0 < oc then
              some (.sysMessage,
                    { a with credit := ⟨0, srcs⟩ },
                    [.send snd MsgId.make (.sysGetNum oc),
                     .attachDeathNotifier snd])
            else
              some (.sysMessage,
                    { a with credit := ⟨oc, srcs⟩ },
                    [.attachDeathNotifier snd])
    | .sysDelSource src =>
      match lookupSrc src a.credit.sources with
      | none => some (.sysMessage, a, [])
      | some released =>
        match grant_credit live released none
            ⟨a.credit.openCredit, eraseSrc src a.credit.sources⟩ with
        | none => none
        | some (cs, msgs) =>
          some (.sysMessage, { a with credit := cs },
                msgs.map (fun m => Event.send m.1 MsgId.make (.sysGetNum m.2)))
    | .sysGetNum n =>
      match x.sender with
      | none => some (.sysMessage, a, [])       -- anonymous: logged error
      | some snd =>
        if a.generators.contains snd then
          some (.sysMessage, a, [.generatorInvoked snd n])
        else
          some (.sysMessage, a, [])             -- unknown sink: dropped
    | .timeoutMsg tid =>
      if isActiveTimeout a tid then some (.timeout, a, [])
      else some (.expiredTimeout, a, [])
    | .exitMsg src reason =>
      let evs := [Event.unlink src]
      if reason = some killReason then
        some (.sysMessage, quit reason a, evs)
      else
        -- default_exit_handler: quit only on a non-empty reason
        match reason with
        | some r => some (.sysMessage, quit (some r) a, evs)
        | none => some (.sysMessage, a, evs)
    | .downMsg _ => some (.sysMessage, a, [])   -- default handler only logs
    | .errMsg e => some (.sysMessage, quit (some e) a, [])
    | .syncTimeoutMsg => some (.ordinary, a, [])
    | .infoReply => some (.ordinary, a, [])
    | .user _ _ => some (.ordinary, a, [])

/-!
## Response promises and the invoke-result visitors
-/

/-- Modelled from the spec: a `response_promise` is a handle to deliver a
response later; a default-constructed one is not pending
(`make_response_promise`, local_actor.hpp:324-334, returns `{}` when no
message is being processed or the id is already answered). -/
structure ResponsePromise where
  pending : Bool := false
  dest : Option Addr := none
  mid : MsgId := MsgId.make
  async : Bool := true

/-- `make_response_promise()` (local_actor.hpp:324-334). -/
def make_response_promise (a : Actor) : ResponsePromise :=
  match a.currentElement with
  | none => {}
  | some env =>
    if env.mid.answered then {}
    else ⟨true, env.sender, env.mid.responseId, !env.mid.req⟩

/-- Mark the current element's id answered (modelled from the spec:
delivering through a promise answers the request, so later promises for
the same element are invalid). -/
def markCurrentAnswered (a : Actor) : Actor :=
  match a.currentElement with
  | none => a
  | some env =>
    { a with currentElement := some { env with mid := { env.mid with answered := true } } }

/-- `invoke_result_visitor_helper` delivery (local_actor.cpp:465-491):
errors are delivered; empty messages to asynchronous requesters are
suppressed; `none_t` becomes an `unexpected_response` error. -/
def promiseDeliver (rp : ResponsePromise) (r : HandlerResult) (a : Actor) :
    Actor × List Event :=
  let sendTo : Payload → Actor × List Event := fun p =>
    (markCurrentAnswered a,
     match rp.dest with
     | some d => [Event.send d rp.mid p]
     | none => [])
  match r with
  | .err e => sendTo (.errMsg e)
  | .msg isEmpty tag =>
    if isEmpty && rp.async then (a, []) else sendTo (.user tag isEmpty)
  | .noValue => sendTo (.errMsg unexpectedResponseErr)

/-- `local_actor_invoke_result_visitor::delegate` (local_actor.cpp:503-512):
a non-pending promise suppresses the handler's return value. -/
def visitorDelegate (r : HandlerResult) (a : Actor) : Actor × List Event :=
  let rp := make_response_promise a
  if !rp.pending then (a, [])
  else promiseDeliver rp r a

/-- `local_actor_flow_visitor` (local_actor.cpp:533-568): an empty message
grants one credit to the source; anything else is only logged. -/
def flowVisit (live : Addr → Bool) (r : HandlerResult) (srcAddr : Addr)
    (a : Actor) : Option (Actor × List Event) :=
  match r with
  | .msg isEmpty _ =>
    if isEmpty then
      match grant_credit live 1 (some srcAddr) a.credit with
      | none => none
      | some (cs, msgs) =>
        some ({ a with credit := cs },
              msgs.map (fun m => Event.send m.1 MsgId.make (.sysGetNum m.2)))
    else some (a, [])
  | .err _ => some (a, [])
  | .noValue => some (a, [])

/-!
## Response handling and `invoke_message`
-/

/-- Run a behavior on a payload through the standard invoke-result visitor
(`ref_fun(visitor, ...)` in `handle_response`).  The first component is
true exactly on `match_case::no_match`. -/
def invokeWith (b : Behavior) (p : Payload) (a : Actor) :
    Bool × Actor × List Event :=
  match b.run p with
  | .ret r =>
    let (a2, evs) := visitorDelegate r a
    (false, a2, .invokeHandler b.tag p :: evs)
  | .skip => (false, a, [.invokeHandler b.tag p])
  | .noMatch => (true, a, [.invokeHandler b.tag p])

/-- The `invoke_error` lambda of `handle_response` (local_actor.cpp:582-589):
run the behavior on the error; if unmatched, fall back to the error
handler (default: `quit`). -/
def invokeError (b : Behavior) (e : Nat) (a : Actor) : Actor × List Event :=
  let (nm, a2, evs) := invokeWith b (.errMsg e) a
  if nm then (quit (some e) a2, evs) else (a2, evs)

/-- `handle_response` (local_actor.cpp:572-603): swap the envelope in as
the current element, run the stored behavior; a `sync_timeout_msg`
becomes a `request_timeout` error (after firing the behavior's timeout
handler if it has one); `no_match` on an error payload goes to the error
handler, `no_match` otherwise is retried as an `unexpected_response`
error; the guard restores the current element. -/
def handle_response (env : Envelope) (b : Behavior) (a : Actor) :
    Actor × List Event :=
  let old := a.currentElement
  let a1 := { a with currentElement := some env }
  let (a2, evs) :=
    if env.payload = .syncTimeoutMsg then
      let evs0 :=
        if b.timeoutDur.isSome then [Event.invokeTimeoutHandler b.tag] else []
      let (a3, evs1) := invokeError b requestTimeoutErr a1
      (a3, evs0 ++ evs1)
    else
      let (nm, a3, evs1) := invokeWith b env.payload a1
      if nm then
        match env.payload with
        | .errMsg e => (quit (some e) a3, evs1)
        | _ =>
          let (a4, evs2) := invokeError b unexpectedResponseErr a3
          (a4, evs1 ++ evs2)
      else (a3, evs1)
  ({ a2 with currentElement := old }, evs)

/-- `invoke_message(ptr, fun, awaited_id)` (local_actor.cpp:605-723). -/
def invoke_message (live : Addr → Bool) (env : Envelope) (b : Behavior)
    (awaitedId : MsgId) (a : Actor) :
    Option (InvokeResult × Actor × List Event) :=
  match filter_msg live env a with
  | none => none
  | some (mt, a1, evs1) =>
    match mt with
    | .expiredTimeout => some (.dropped, a1, evs1)
    | .sysMessage => some (.dropped, a1, evs1)
    | .timeout =>
      if awaitedId = MsgId.make then
        let tid := match env.payload with | .timeoutMsg t => t | _ => 0
        let (a2, evs2) := handle_timeout b tid a1
        some (.success, a2, evs1 ++ evs2)
      else
        some (.dropped, a1, evs1)  -- "async" timeout in sync mode
    | .response =>
      let mid := env.mid
      match findResp mid a1.multiplexed with
      | some rb =>
        if !awaitedId.valid then
          let (a2, evs2) := handle_response env rb a1
          some (.success, mark_multiplexed_arrived mid a2, evs1 ++ evs2)
        else
          some (.skipped, a1, evs1)
      | none =>
        match findResp mid a1.awaited with
        | some rb =>
          if awaitedId.valid && mid == awaitedId then
            let (a2, evs2) := handle_response env rb a1
            some (.success, mark_awaited_arrived mid a2, evs1 ++ evs2)
          else
            some (.skipped, a1, evs1)
        | none => some (.dropped, a1, evs1)  -- expired response
    | .ordinary =>
      if awaitedId.valid then some (.skipped, a1, evs1)
      else
        let had := a1.hasTimeout
        let a2 := if had then { a1 with hasTimeout := false } else a1
        let old := a2.currentElement
        let a3 := { a2 with currentElement := some env }
        if !env.mid.flow then
          match b.run env.payload with
          | .skip =>
            let a4 := { a3 with currentElement := old }
            let a5 := if had then { a4 with hasTimeout := true } else a4
            some (.skipped, a5, evs1 ++ [.invokeHandler b.tag env.payload])
          | .ret r =>
            let (a4, evs2) := visitorDelegate r a3
            some (.success, { a4 with currentElement := old },
                  evs1 ++ [.invokeHandler b.tag env.payload] ++ evs2)
          | .noMatch =>
            let a4 := if had then { a3 with hasTimeout := true } else a3
            -- print_and_drop returns sec::unexpected_message (not rt_skip),
            -- so the visitor delivers it (local_actor.cpp:672-681)
            let (a5, evs2) := visitorDelegate (.err unexpectedMessageErr) a4
            some (.success, { a5 with currentElement := old },
                  evs1 ++ [.invokeHandler b.tag env.payload] ++ evs2)
        else
          match env.sender with
          | none =>
            -- flow-controlled from anonymous: logged error, no invocation
            some (.success, { a3 with currentElement := old }, evs1)
          | some snd =>
            match lookupSrc snd a3.credit.sources with
            | none =>
              -- unknown source: logged error, no invocation
              some (.success, { a3 with currentElement := old }, evs1)
            | some _ =>
              match b.run env.payload with
              | .skip =>
                let a4 := { a3 with currentElement := old }
                let a5 := if had then { a4 with hasTimeout := true } else a4
                some (.skipped, a5,
                      evs1 ++ [.invokeHandler b.tag env.payload])
              | .ret r =>
                match flowVisit live r snd a3 with
                | none => none
                | some (a4, evs2) =>
                  some (.success, { a4 with currentElement := old },
                        evs1 ++ [.invokeHandler b.tag env.payload] ++ evs2)
              | .noMatch =>
                -- the default handler's error is only logged by the
                -- flow visitor (local_actor.cpp:546-550)
                let a4 := if had then { a3 with hasTimeout := true } else a3
                some (.success, { a4 with currentElement := old },
                      evs1 ++ [.invokeHandler b.tag env.payload])

/-!
## Dispatch engine: cache, `next_message`, `exec_event`, `resume`
-/

/-- The behavior `exec_event` dispatches with (local_actor.cpp:1000-1004):
the front awaited handler while awaiting, else the top of the stack,
else the empty behavior. -/
def currentBehavior (a : Actor) : Behavior :=
  if awaitsResponse a then
    match a.awaited with
    | pr :: _ => pr.2
    | [] => emptyBehavior
  else
    match a.bhvrStack.getLast? with
    | some b => b
    | none => emptyBehavior

/-- `cleanup(fail_state, host)` (local_actor.cpp:1188-1210): shut down a
detached worker, clear generators and the current element, close the
mailbox with a request bouncer (modelled from the spec: `close(bouncer)`
drains the pending queue and the cache segments, bouncing every request
envelope with the fail state), clear both response tables, unsubscribe,
deregister and mark the actor cleaned up. -/
def cleanup (reason : Option Nat) (a : Actor) : Actor × List Event :=
  let evs0 :=
    if a.detached && !a.blocking then [Event.shutdownPrivateThread] else []
  let a1 := { a with generators := [], currentElement := none }
  let (a2, evsB) :=
    if a1.mstatus != .closed then
      let pend := a1.mbox ++ a1.cacheFirst ++ a1.cacheSecond
      ({ a1 with mbox := [], cacheFirst := [], cacheSecond := [],
                 mstatus := .closed },
       pend.filterMap (fun e =>
         if e.mid.req then
           match e.sender with
           | some snd => some (Event.bounce snd e.mid reason)
           | none => none
         else none))
    else (a1, [])
  ({ a2 with awaited := [], multiplexed := [], subscriptions := [],
             registered := false, cleanedUp := true, failState := reason },
   evs0 ++ evsB)

/-- `finished()` (local_actor.cpp:1177-1186): still running while a
behavior exists and the actor is not terminated; otherwise run `on_exit`
(a nop by default, local_actor.cpp:260-262), clear the stack and clean
up with the fail state. -/
def finished (a : Actor) : Bool × Actor × List Event :=
  if hasBehavior a && !a.terminated then (false, a, [])
  else
    let a1 := { a with bhvrStack := [] }
    let (a2, evs) := cleanup a1.failState a1
    (true, a2, evs)

/-- `push_to_cache` (local_actor.cpp:1112-1126): skipped envelopes go to
the second cache segment; in priority-aware mode a high-priority envelope
is inserted at the partition point after the leading high-priority
block. -/
def push_to_cache (env : Envelope) (a : Actor) : Actor :=
  if !a.priorityAware then
    { a with cacheSecond := a.cacheSecond ++ [env] }
  else if env.isHighPriority then
    { a with cacheSecond :=
        a.cacheSecond.takeWhile Envelope.isHighPriority ++ [env]
          ++ a.cacheSecond.dropWhile Envelope.isHighPriority }
  else
    { a with cacheSecond := a.cacheSecond ++ [env] }

/-- One pass over the skipped backlog.  Modelled from the spec:
`cache::invoke` (the cache type is not part of this tree) replays the
backlog in order against the given behavior and awaited id; an element
whose invocation succeeds or is dropped is removed and the pass reports
progress; skipped elements stay. -/
def invokeFromCacheScan (live : Addr → Bool) (b : Behavior) (mid : MsgId) :
    Actor → List Envelope → List Envelope →
    Option (Bool × Actor × List Event)
  | a, acc, [] => some (false, { a with cacheSecond := acc.reverse }, [])
  | a, acc, e :: rest =>
    match invoke_message live e b mid a with
    | none => none
    | some (.skipped, a2, evs) =>
      match invokeFromCacheScan live b mid a2 (e :: acc) rest with
      | none => none
      | some (flag, a3, evs2) => some (flag, a3, evs ++ evs2)
    | some (_, a2, evs) =>
      some (true, { a2 with cacheSecond := acc.reverse ++ rest }, evs)

/-- `invoke_from_cache()` (local_actor.cpp:1128-1143). -/
def invoke_from_cache (live : Addr → Bool) (a : Actor) :
    Option (Bool × Actor × List Event) :=
  invokeFromCacheScan live (currentBehavior a) (awaited_response_id a)
    a [] a.cacheSecond

/-- The `while (invoke_from_cache())` loop of `exec_event`
(local_actor.cpp:1018-1023); each productive pass removes one cached
element, so the backlog length bounds the iteration count (`fuel`). -/
def cacheDrainLoop (live : Addr → Bool) :
    Nat → Actor → Option (Bool × Actor × List Event)
  | 0, a => some (false, a, [])
  | fuel + 1, a =>
    match invoke_from_cache live a with
    | none => none
    | some (false, a2, evs) => some (false, a2, evs)
    | some (true, a2, evs) =>
      let (fin, a3, evs3) := finished a2
      if fin then some (true, a3, evs ++ evs3)
      else
        match cacheDrainLoop live fuel a3 with
        | none => none
        | some (fin2, a4, evs4) => some (fin2, a4, evs ++ evs3 ++ evs4)

/-- `exec_event(ptr)` (local_actor.cpp:997-1040).  The boolean is true
when the result is `resume_result::done`. -/
def exec_event (live : Addr → Bool) (env : Envelope) (a : Actor) :
    Option (Bool × InvokeResult × Actor × List Event) :=
  let b := currentBehavior a
  let mid := awaited_response_id a
  match invoke_message live env b mid a with
  | none => none
  | some (res, a1, evs1) =>
    match res with
    | .success =>
      let (fin, a2, evs2) := finished a1
      if fin then some (true, res, a2, evs1 ++ evs2)
      else
        match cacheDrainLoop live (a2.cacheSecond.length + 1) a2 with
        | none => none
        | some (fin2, a3, evs3) => some (fin2, res, a3, evs1 ++ evs2 ++ evs3)
    | .skipped => some (false, res, push_to_cache env a1, evs1)
    | .dropped =>
      let (fin, a2, evs2) := finished a1
      some (fin, res, a2, evs1 ++ evs2)

/-- The reassembly loop of `next_message` (local_actor.cpp:1086-1095),
in a functional form: the first segment is split at the running
high-priority insert point `hp_pos` into the part before it (`before`)
and the part from it on (`post`); a high-priority envelope is inserted
right before `hp_pos`, a low-priority one at the segment end, and
`hp_pos` moves onto the first low-priority element inserted while it
was at the end. -/
def drainLoop : List Envelope → List Envelope → List Envelope →
    List Envelope × List Envelope
  | [], before, post => (before, post)
  | x :: rest, before, post =>
    if x.isHighPriority then drainLoop rest (before ++ [x]) post
    else
      match post with
      | [] => drainLoop rest before [x]
      | _ => drainLoop rest before (post ++ [x])

/-- `next_message()` (local_actor.cpp:1074-1101): non-priority-aware
actors pop the raw mailbox; priority-aware actors first reassemble the
first cache segment (draining the whole mailbox) unless its front is
already a high-priority envelope, then pop the segment's front. -/
def next_message (a : Actor) : Option Envelope × Actor :=
  if !a.priorityAware then
    match a.mbox with
    | [] => (none, a)
    | e :: rest => (some e, { a with mbox := rest })
  else
    let needDrain :=
      match a.cacheFirst with
      | [] => true
      | e :: _ => !e.isHighPriority
    let a1 :=
      if needDrain then
        let (before, post) := drainLoop a.mbox [] a.cacheFirst
        { a with mbox := [], cacheFirst := before ++ post }
      else a
    match a1.cacheFirst with
    | [] => (none, a1)
    | e :: rest => (some e, { a1 with cacheFirst := rest })

/-- `has_next_message()` (local_actor.cpp:1103-1110). -/
def has_next_message (a : Actor) : Bool :=
  if !a.priorityAware then !a.mbox.isEmpty
  else !a.cacheFirst.isEmpty || !a.mbox.isEmpty

/-- `mailbox().try_block()`: atomically mark the reader blocked when no
message is pending, else fail. -/
def try_block (a : Actor) : Bool × Actor :=
  if a.mbox.isEmpty then (true, { a with mstatus := .blocked }) else (false, a)

/-- The `reset_timeout_if_needed` lambda of `resume`
(local_actor.cpp:938-942). -/
def resetTimeoutIfNeeded (handled : Nat) (a : Actor) : Actor × List Event :=
  if 0 < handled then
    match a.bhvrStack.getLast? with
    | some b =>
      let (_, a2, evs) := request_timeout b.timeoutDur a
      (a2, evs)
    | none => (a, [])
  else (a, [])

/-- The throughput loop of `resume` (local_actor.cpp:943-963). -/
def resumeLoop (live : Addr → Bool) :
    Nat → Nat → Actor → Option (ResumeResult × Actor × List Event)
  | 0, handled, a =>
    let (a1, evs) := resetTimeoutIfNeeded handled a
    if !has_next_message a1 then
      let (ok, a2) := try_block a1
      if ok then some (.awaitingMessage, a2, evs)
      else some (.resumeLater, a2, evs)
    else some (.resumeLater, a1, evs)
  | fuel + 1, handled, a =>
    let (ptr, a1) := next_message a
    match ptr with
    | some env =>
      match exec_event live env a1 with
      | none => none
      | some (done, res, a2, evs) =>
        if done then some (.done, a2, evs)
        else
          match resumeLoop live fuel
              (handled + (if res = .success then 1 else 0)) a2 with
          | none => none
          | some (r, a3, evs2) => some (r, a3, evs ++ evs2)
    | none =>
      let (a2, evs) := resetTimeoutIfNeeded handled a1
      let (ok, a3) := try_block a2
      if ok then some (.awaitingMessage, a3, evs)
      else
        match resumeLoop live fuel handled a3 with
        | none => none
        | some (r, a4, evs2) => some (r, a4, evs ++ evs2)

/-- Modelled from the spec: `initialize()` is pure virtual
(local_actor.hpp:501); event-based subclasses mark the actor initialized
and install the behavior produced by the initial-behavior factory
(`initial_behavior_fac_`) through `do_become`. -/
def initializeActor (a : Actor) : Actor × List Event :=
  let a1 := { a with initialized := true }
  match a1.initBehavior with
  | none => (a1, [])
  | some b => do_become b false a1

/-- `resume(eu, max_throughput)` (local_actor.cpp:911-995).  The
exception paths (local_actor.cpp:965-994) are outside this model: every
modelled handler is a total function. -/
def resume (live : Addr → Bool) (eu : Nat) (maxThroughput : Nat)
    (a : Actor) : Option (ResumeResult × Actor × List Event) :=
  let a0 := { a with context := some eu }
  if (a0.initialized && (!hasBehavior a0 || a0.terminated)) = true then
    some (.done, a0, [])
  else if !a0.initialized then
    let (a1, evs1) := initializeActor a0
    let (fin, a2, evs2) := finished a1
    if fin then some (.done, a2, evs1 ++ evs2)
    else
      match resumeLoop live maxThroughput 0 a2 with
      | none => none
      | some (r, a3, evs3) => some (r, a3, evs1 ++ evs2 ++ evs3)
  else
    resumeLoop live maxThroughput 0 a0

/-!
## Claim C4: response routing in `invoke_message`
-/

theorem invokeWith_mem (b : Behavior) (p : Payload) (a : Actor) :
    Event.invokeHandler b.tag p ∈ (invokeWith b p a).2.2 := by
  unfold invokeWith
  cases b.run p with
  | ret r => simp
  | skip => simp
  | noMatch => simp

theorem invokeError_mem (b : Behavior) (e : Nat) (a : Actor) :
    Event.invokeHandler b.tag (.errMsg e) ∈ (invokeError b e a).2 := by
  rcases hiw : invokeWith b (.errMsg e) a with ⟨nm, a2, evs⟩
  have hmem := invokeWith_mem b (.errMsg e) a
  rw [hiw] at hmem
  simp only at hmem
  unfold invokeError
  rw [hiw]
  cases nm <;> simpa using hmem

/-- `handle_response` always runs the stored behavior: its event trace
contains an invocation of that behavior. -/
theorem handle_response_invokes (env : Envelope) (b : Behavior)
    (a : Actor) :
    ∃ p, Event.invokeHandler b.tag p ∈ (handle_response env b a).2 := by
  by_cases hsync : env.payload = .syncTimeoutMsg
  · refine ⟨.errMsg requestTimeoutErr, ?_⟩
    rcases hie : invokeError b requestTimeoutErr
        { a with currentElement := some env } with ⟨a3, evs1⟩
    have hmem := invokeError_mem b requestTimeoutErr
      { a with currentElement := some env }
    rw [hie] at hmem
    simp only at hmem
    unfold handle_response
    simp [hsync, hie, hmem]
  · refine ⟨env.payload, ?_⟩
    rcases hiw : invokeWith b env.payload
        { a with currentElement := some env } with ⟨nm, a3, evs1⟩
    have hmem := invokeWith_mem b env.payload
      { a with currentElement := some env }
    rw [hiw] at hmem
    simp only at hmem
    unfold handle_response
    cases nm with
    | false => simp [hsync, hiw, hmem]
    | true =>
      cases henv : env.payload <;>
        simp_all [List.mem_append, invokeError_mem]

/-- Claim C4: for every response envelope, `invoke_message` consults the
multiplexed table first — found there with no awaited id in force, the
handler runs and the entry is erased (`im_success`); found there while an
awaited id is in force, the envelope is skipped; otherwise the awaited
list is consulted — found and equal to the currently awaited id, the
handler runs and the entry is removed; found but not currently awaited,
skipped; in neither table, dropped as expired
(local_actor.cpp:628-653). -/
theorem invoke_message_response_routing (live : Addr → Bool)
    (env : Envelope) (b : Behavior) (awaitedId : MsgId) (a : Actor)
    (hresp : env.mid.resp = true) :
    (∀ rb, findResp env.mid a.multiplexed = some rb →
       awaitedId.valid = false →
       invoke_message live env b awaitedId a
         = some (.success,
                 mark_multiplexed_arrived env.mid (handle_response env rb a).1,
                 (handle_response env rb a).2) ∧
       ∃ p, Event.invokeHandler rb.tag p ∈ (handle_response env rb a).2) ∧
    (∀ rb, findResp env.mid a.multiplexed = some rb →
       awaitedId.valid = true →
       invoke_message live env b awaitedId a = some (.skipped, a, [])) ∧
    (∀ rb, findResp env.mid a.multiplexed = none →
       findResp env.mid a.awaited = some rb →
       awaitedId.valid = true → env.mid = awaitedId →
       invoke_message live env b awaitedId a
         = some (.success,
                 mark_awaited_arrived env.mid (handle_response env rb a).1,
                 (handle_response env rb a).2) ∧
       ∃ p, Event.invokeHandler rb.tag p ∈ (handle_response env rb a).2) ∧
    (∀ rb, findResp env.mid a.multiplexed = none →
       findResp env.mid a.awaited = some rb →
       (awaitedId.valid = false ∨ env.mid ≠ awaitedId) →
       invoke_message live env b awaitedId a = some (.skipped, a, [])) ∧
    (findResp env.mid a.multiplexed = none →
     findResp env.mid a.awaited = none →
     invoke_message live env b awaitedId a = some (.dropped, a, [])) := by
  have hfm : filter_msg live env a = some (.response, a, []) := by
    unfold filter_msg
    rw [if_pos hresp]
  refine ⟨?_, ?_, ?_, ?_, ?_⟩
  · intro rb hmul hval
    constructor
    · unfold invoke_message
      rw [hfm]
      simp only [hmul, hval]
      simp
    · exact handle_response_invokes env rb a
  · intro rb hmul hval
    unfold invoke_message
    rw [hfm]
    simp only [hmul, hval]
    simp
  · intro rb hmul hawa hval heq
    constructor
    · unfold invoke_message
      rw [hfm]
      rw [heq] at hmul hawa
      rw [heq]
      simp only [hmul, hawa, hval]
      simp
    · exact handle_response_invokes env rb a
  · intro rb hmul hawa hcond
    unfold invoke_message
    rw [hfm]
    simp only [hmul, hawa]
    have : (awaitedId.valid && env.mid == awaitedId) = false := by
      cases hcond with
      | inl h => simp [h]
      | inr h => simp [h]
    simp [this]
  · intro hmul hawa
    unfold invoke_message
    rw [hfm]
    simp [hmul, hawa]

/-- Witness for `invoke_message_response_routing`: a multiplexed response
with no awaited id in force is handled and its entry erased. -/
theorem invoke_message_response_routing_witness :
    invoke_message (fun _ => true)
        { sender := some 5, mid := { resp := true, seq := 9 },
          payload := .user 1 false }
        emptyBehavior MsgId.make
        { actor0 with
            multiplexed := [({ resp := true, seq := 9 },
                             { tag := 77, run := fun _ => .ret (.msg true 0) })] }
      = some (.success,
              mark_multiplexed_arrived { resp := true, seq := 9 }
                (handle_response
                  { sender := some 5, mid := { resp := true, seq := 9 },
                    payload := .user 1 false }
                  { tag := 77, run := fun _ => .ret (.msg true 0) }
                  { actor0 with
                      multiplexed := [({ resp := true, seq := 9 },
                                       { tag := 77,
                                         run := fun _ => .ret (.msg true 0) })] }).1,
              (handle_response
                { sender := some 5, mid := { resp := true, seq := 9 },
                  payload := .user 1 false }
                { tag := 77, run := fun _ => .ret (.msg true 0) }
                { actor0 with
                    multiplexed := [({ resp := true, seq := 9 },
                                     { tag := 77,
                                       run := fun _ => .ret (.msg true 0) })] }).2) :=
  ((invoke_message_response_routing (fun _ => true)
      { sender := some 5, mid := { resp := true, seq := 9 },
        payload := .user 1 false }
      emptyBehavior MsgId.make
      { actor0 with
          multiplexed := [({ resp := true, seq := 9 },
                           { tag := 77, run := fun _ => .ret (.msg true 0) })] }
      rfl).1
    { tag := 77, run := fun _ => .ret (.msg true 0) } rfl rfl).1

/-!
## Claim C5: an id in at most one response table
-/

/-- The four response-table operations of claim C5. -/
inductive RespOp where
  | setAwaited (mid : MsgId)
  | setMultiplexed (mid : MsgId)
  | markAwaited (mid : MsgId)
  | markMultiplexed (mid : MsgId)
  deriving Repr, DecidableEq

/-- Apply one table operation (the registered behavior is irrelevant to
id membership, so the empty behavior is stored). -/
def applyRespOp (a : Actor) : RespOp → Actor
  | .setAwaited mid => set_awaited_response_handler mid emptyBehavior a
  | .setMultiplexed mid => (set_multiplexed_response_handler mid emptyBehavior a).1
  | .markAwaited mid => mark_awaited_arrived mid a
  | .markMultiplexed mid => mark_multiplexed_arrived mid a

def runRespOps : Actor → List RespOp → Actor
  | a, [] => a
  | a, op :: rest => runRespOps (applyRespOp a op) rest

/-- An interleaving is registration-disjoint when every
`set_awaited_response_handler` fires while its id is not in the
multiplexed table and vice versa (as the runtime guarantees by using a
fresh request id per registration). -/
def tablesSafe : Actor → List RespOp → Bool
  | _, [] => true
  | a, op :: rest =>
    (match op with
     | .setAwaited mid => (findResp mid a.multiplexed).isNone
     | .setMultiplexed mid => (findResp mid a.awaited).isNone
     | _ => true) &&
    tablesSafe (applyRespOp a op) rest

theorem findResp_updateResp_isSome (m mid : MsgId) (b : Behavior) :
    ∀ l : List (MsgId × Behavior),
      (findResp m (updateResp mid b l)).isSome = (findResp m l).isSome := by
  intro l
  induction l with
  | nil => simp [updateResp, findResp]
  | cons pr rest ih =>
    by_cases hb : pr.1 = mid
    · by_cases hm : pr.1 = m
      · simp [updateResp, hb, findResp, hb ▸ hm]
      · have : ¬ mid = m := by rw [← hb]; exact hm
        simp [updateResp, hb, findResp, hm, this]
    · simp only [updateResp, if_neg hb, findResp]
      by_cases hm : pr.1 = m
      · simp [hm]
      · simp [hm, ih]

theorem findResp_cons_isSome (m mid : MsgId) (b : Behavior)
    (l : List (MsgId × Behavior)) :
    (findResp m ((mid, b) :: l)).isSome = true ↔
      mid = m ∨ (findResp m l).isSome = true := by
  by_cases hm : mid = m
  · simp [findResp, hm]
  · simp [findResp, hm]

theorem findResp_append_single_isSome (m mid : MsgId) (b : Behavior) :
    ∀ l : List (MsgId × Behavior),
      (findResp m (l ++ [(mid, b)])).isSome = true ↔
        (findResp m l).isSome = true ∨ mid = m := by
  intro l
  induction l with
  | nil => by_cases hm : mid = m <;> simp [findResp, hm]
  | cons pr rest ih =>
    by_cases hp : pr.1 = m
    · simp [findResp, hp]
    · simp [findResp, hp, ih]

theorem findResp_filter_isSome (m mid : MsgId) :
    ∀ l : List (MsgId × Behavior),
      (findResp m (l.filter (fun pr => pr.1 != mid))).isSome = true →
        (findResp m l).isSome = true := by
  intro l
  induction l with
  | nil => simp [findResp]
  | cons pr rest ih =>
    intro h
    by_cases hk : pr.1 = mid
    · rw [List.filter_cons_of_neg (by simp [hk])] at h
      by_cases hm : pr.1 = m
      · simp [findResp, hm]
      · simp [findResp, hm]
        exact ih h
    · rw [List.filter_cons_of_pos (by simp [hk])] at h
      by_cases hm : pr.1 = m
      · simp [findResp, hm]
      · simp only [findResp, if_neg hm] at h ⊢
        exact ih h

/-- Claim C5, as stated, is false on the code: neither setter consults
the other table (local_actor.cpp:771-777 and 808-817), so installing a
multiplexed handler and then an awaited handler for the same id puts the
id into both tables. -/
theorem response_tables_disjoint_cex :
    (findResp { resp := true, seq := 4 }
        (runRespOps actor0
          [.setMultiplexed { resp := true, seq := 4 },
           .setAwaited { resp := true, seq := 4 }]).awaited).isSome = true ∧
    (findResp { resp := true, seq := 4 }
        (runRespOps actor0
          [.setMultiplexed { resp := true, seq := 4 },
           .setAwaited { resp := true, seq := 4 }]).multiplexed).isSome
      = true := by
  refine ⟨by rfl, by rfl⟩

/-- Claim C5 amended: over every registration-disjoint interleaving of
the four operations (in particular the runtime's, which registers each
fresh response id in exactly one table), an id is present in at most one
of the two tables. -/
theorem response_tables_disjoint (a : Actor) (ops : List RespOp)
    (mid : MsgId)
    (hdisj : ∀ m : MsgId, ¬((findResp m a.awaited).isSome = true ∧
                            (findResp m a.multiplexed).isSome = true))
    (hsafe : tablesSafe a ops = true) :
    ¬((findResp mid (runRespOps a ops).awaited).isSome = true ∧
      (findResp mid (runRespOps a ops).multiplexed).isSome = true) := by
  induction ops generalizing a with
  | nil => exact hdisj mid
  | cons op rest ih =>
    unfold tablesSafe at hsafe
    rw [Bool.and_eq_true] at hsafe
    unfold runRespOps
    refine ih (applyRespOp a op) ?_ hsafe.2
    intro m
    have hd := hdisj m
    cases op with
    | setAwaited k =>
      have hk := hsafe.1
      simp only at hk
      intro ⟨h1, h2⟩
      simp only [applyRespOp, set_awaited_response_handler] at h1 h2
      by_cases hf : (findResp k a.awaited).isSome = true
      · rw [if_pos hf] at h1 h2
        simp only at h1 h2
        rw [findResp_updateResp_isSome] at h1
        exact hd ⟨h1, h2⟩
      · rw [if_neg hf] at h1 h2
        simp only at h1 h2
        rw [findResp_cons_isSome] at h1
        cases h1 with
        | inl hkm =>
          subst hkm
          rw [Option.isNone_iff_eq_none] at hk
          rw [hk] at h2
          simp at h2
        | inr h1 => exact hd ⟨h1, h2⟩
    | setMultiplexed k =>
      have hk := hsafe.1
      simp only at hk
      intro ⟨h1, h2⟩
      simp only [applyRespOp, set_multiplexed_response_handler] at h1 h2
      by_cases hf : (findResp k a.multiplexed).isSome = true
      · rw [if_pos hf] at h1 h2
        simp only at h1 h2
        rw [findResp_updateResp_isSome] at h2
        exact hd ⟨h1, h2⟩
      · rw [if_neg hf] at h1 h2
        simp only at h1 h2
        rw [findResp_append_single_isSome] at h2
        cases h2 with
        | inl h2 => exact hd ⟨h1, h2⟩
        | inr hkm =>
          subst hkm
          rw [Option.isNone_iff_eq_none] at hk
          rw [hk] at h1
          simp at h1
    | markAwaited k =>
      intro ⟨h1, h2⟩
      simp only [applyRespOp, mark_awaited_arrived] at h1 h2
      exact hd ⟨findResp_filter_isSome m k _ h1, h2⟩
    | markMultiplexed k =>
      intro ⟨h1, h2⟩
      simp only [applyRespOp, mark_multiplexed_arrived] at h1 h2
      exact hd ⟨h1, findResp_filter_isSome m k _ h2⟩

/-- Witness for `response_tables_disjoint`: registering two distinct ids
(one per table) and erasing one leaves the tables disjoint for the
multiplexed id. -/
theorem response_tables_disjoint_witness :
    ¬((findResp { resp := true, seq := 1 }
        (runRespOps actor0
          [.setMultiplexed { resp := true, seq := 1 },
           .setAwaited { resp := true, seq := 2 },
           .markAwaited { resp := true, seq := 2 }]).awaited).isSome = true ∧
      (findResp { resp := true, seq := 1 }
        (runRespOps actor0
          [.setMultiplexed { resp := true, seq := 1 },
           .setAwaited { resp := true, seq := 2 },
           .markAwaited { resp := true, seq := 2 }]).multiplexed).isSome
        = true) :=
  response_tables_disjoint actor0
    [.setMultiplexed { resp := true, seq := 1 },
     .setAwaited { resp := true, seq := 2 },
     .markAwaited { resp := true, seq := 2 }]
    { resp := true, seq := 1 }
    (by intro m; simp [actor0, findResp])
    (by rfl)

/-!
## Claim C6: timeout monotonicity
-/

/-- Claim C6's "request_timeout with a valid duration strictly increases
timeout_id_" fails at the `uint32_t` wrap: from `timeout_id_ = 2^32 - 2`
(reachable, since the id advances by 2 per call from 0), the double
increment (local_actor.cpp:277-278) wraps the stored id to 0. -/
theorem timeout_id_increase_cex :
    (request_timeout (some 5)
        { actor0 with timeoutId := 4294967294 }).2.1.timeoutId = 0 ∧
    ¬(4294967294 <
      (request_timeout (some 5)
          { actor0 with timeoutId := 4294967294 }).2.1.timeoutId) := by
  refine ⟨by rfl, by decide⟩

/-- Claim C6 amended: `request_timeout` with a valid duration advances
`timeout_id_` by two modulo 2^32 (strictly increasing short of the wrap)
and leaves it the active id; any delivered `timeout_msg{j}` whose `j` is
not the active id is classified `expired_timeout` by `filter_msg` and
dropped by `invoke_message` with the state unchanged and no events — in
particular no behavior's timeout handler runs; only the active id
triggers `handle_timeout`. -/
theorem timeout_monotonicity (live : Addr → Bool) (dur : Nat) (j : Nat)
    (snd : Option Addr) (st : List Addr) (b : Behavior)
    (awaitedId : MsgId) (m : MsgId) (a : Actor)
    (hm : m.resp = false)
    (hstale : isActiveTimeout a j = false) :
    ((request_timeout (some dur) a).2.1.timeoutId = w32 (a.timeoutId + 2) ∧
     (request_timeout (some dur) a).2.1.hasTimeout = true ∧
     (a.timeoutId + 2 < U32 →
        a.timeoutId < (request_timeout (some dur) a).2.1.timeoutId)) ∧
    (filter_msg live ⟨snd, m, st, .timeoutMsg j⟩ a
       = some (.expiredTimeout, a, []) ∧
     invoke_message live ⟨snd, m, st, .timeoutMsg j⟩ b awaitedId a
       = some (.dropped, a, [])) ∧
    (∀ tid, isActiveTimeout a tid = true → awaitedId = MsgId.make →
       ∃ a2, invoke_message live ⟨snd, m, st, .timeoutMsg tid⟩ b awaitedId a
         = some (.success, a2, [Event.invokeTimeoutHandler b.tag])) := by
  have hfm : filter_msg live ⟨snd, m, st, .timeoutMsg j⟩ a
      = some (.expiredTimeout, a, []) := by
    unfold filter_msg
    simp [hm, hstale]
  refine ⟨⟨?_, ?_, ?_⟩, ⟨hfm, ?_⟩, ?_⟩
  · unfold request_timeout
    by_cases hz : dur = 0
    · subst hz
      simp only [if_pos rfl]
      unfold enqueue
      cases hms : a.mstatus <;> simp
    · simp [hz]
  · unfold request_timeout
    by_cases hz : dur = 0
    · subst hz
      simp only [if_pos rfl]
      unfold enqueue
      cases hms : a.mstatus <;> simp
    · simp [hz]
  · intro hlt
    unfold request_timeout
    have hw : w32 (a.timeoutId + 2) = a.timeoutId + 2 := Nat.mod_eq_of_lt hlt
    by_cases hz : dur = 0
    · subst hz
      simp only [if_pos rfl]
      unfold enqueue
      cases hms : a.mstatus <;> simp [hw]
    · simp [hz, hw]
  · unfold invoke_message
    rw [hfm]
  · intro tid hact hawa
    have hfm2 : filter_msg live ⟨snd, m, st, .timeoutMsg tid⟩ a
        = some (.timeout, a, []) := by
      unfold filter_msg
      simp [hm, hact]
    refine ⟨(handle_timeout b tid a).1, ?_⟩
    unfold invoke_message
    rw [hfm2]
    simp only [hawa, if_pos rfl]
    have hht : (handle_timeout b tid a).2 = [Event.invokeTimeoutHandler b.tag] := by
      unfold handle_timeout
      rw [hact]
      simp only [Bool.not_true, Bool.false_eq_true, if_false]
      split
      · rfl
      · split <;> rfl
    rcases hh : handle_timeout b tid a with ⟨a2, evs2⟩
    rw [hh] at hht
    simp only at hht
    subst hht
    simp [hh]

/-- Witness for `timeout_monotonicity` at a concrete state: the fresh
actor (`timeout_id_ = 0`, no active timeout) drops `timeout_msg{7}`. -/
theorem timeout_monotonicity_witness :
    filter_msg (fun _ => true) ⟨none, MsgId.make, [], .timeoutMsg 7⟩ actor0
      = some (.expiredTimeout, actor0, []) ∧
    invoke_message (fun _ => true) ⟨none, MsgId.make, [], .timeoutMsg 7⟩
        emptyBehavior MsgId.make actor0
      = some (.dropped, actor0, []) :=
  (timeout_monotonicity (fun _ => true) 5 7 none [] emptyBehavior
    MsgId.make MsgId.make actor0 rfl rfl).2.1

/-!
## Claim C7: the early-return guard of `resume`
-/

/-- Claim C7, as stated, is false on the code: the early-return guard is
`is_initialized() && (!has_behavior() || is_terminated())`
(local_actor.cpp:918), so a terminated but not yet initialized actor is
NOT returned early; `resume` runs `initialize()` and `finished()`, whose
`cleanup` closes the mailbox, draining it and bouncing the pending
request — observable work beyond setting the context.  Here the
terminated actor starts with one request envelope in its mailbox and
`resume` returns `done` with the mailbox drained (1 element to 0), the
queue closed and a bounce dispatched. -/
theorem resume_early_return_cex :
    let aT : Actor :=
      { actor0 with
          terminated := true
          mstatus := .running
          mbox := [{ sender := some 7, mid := { req := true, seq := 3 } }] }
    aT.terminated = true ∧ aT.mbox.length = 1 ∧
    ((resume (fun _ => true) 9 1 aT).map
        (fun r => (r.1, r.2.1.mstatus, r.2.1.mbox.length, r.2.2)))
      = some (.done, .closed, 0,
              [.bounce 7 { req := true, seq := 3 } none]) := by
  refine ⟨rfl, rfl, by rfl⟩

/-- Claim C7 amended: whenever the actor is initialized and either has no
behavior (empty stack, no awaited and no multiplexed responses) or is
terminated, `resume` only sets the context and returns `done`: the state
is otherwise untouched, no message is dequeued and no event is
emitted (local_actor.cpp:917-924). -/
theorem resume_early_done (live : Addr → Bool) (eu maxT : Nat) (a : Actor)
    (hinit : a.initialized = true)
    (hdone : hasBehavior a = false ∨ a.terminated = true) :
    resume live eu maxT a = some (.done, { a with context := some eu }, []) := by
  unfold resume
  have hc : (({ a with context := some eu } : Actor).initialized
      && (!hasBehavior { a with context := some eu }
          || ({ a with context := some eu } : Actor).terminated)) = true := by
    show (a.initialized && (!hasBehavior a || a.terminated)) = true
    cases hdone with
    | inl h => simp [hinit, h]
    | inr h => simp [hinit, h]
  rw [if_pos hc]

/-- Witness for `resume_early_done`: an initialized actor with no
behavior returns `done` immediately. -/
theorem resume_early_done_witness :
    resume (fun _ => true) 3 5 { actor0 with initialized := true }
      = some (.done,
              { ({ actor0 with initialized := true } : Actor) with
                  context := some 3 }, []) :=
  resume_early_done (fun _ => true) 3 5 { actor0 with initialized := true }
    rfl (Or.inl rfl)

/-!
## Claim C8: enqueue on a closed mailbox
-/

/-- Claim C8: when the mailbox is closed, `enqueue` delivers nothing to
the actor; a request id is bounced to the sender as a synthetic error
response carrying the actor's exit reason (fail state), a non-request id
produces nothing, and no handler of the actor runs
(local_actor.cpp:894-900). -/
theorem enqueue_closed_bounces (env : Envelope) (a : Actor)
    (hclosed : a.mstatus = .closed) :
    enqueue env a
      = (a, if env.mid.req then
              match env.sender with
              | some snd => [Event.bounce snd env.mid a.failState]
              | none => []
            else []) ∧
    (∀ t p, Event.invokeHandler t p ∉ (enqueue env a).2) ∧
    (∀ t, Event.invokeTimeoutHandler t ∉ (enqueue env a).2) := by
  have h1 : enqueue env a
      = (a, if env.mid.req then
              match env.sender with
              | some snd => [Event.bounce snd env.mid a.failState]
              | none => []
            else []) := by
    unfold enqueue
    rw [hclosed]
  refine ⟨h1, ?_, ?_⟩
  · intro t p
    rw [h1]
    by_cases hreq : env.mid.req = true
    · cases hsnd : env.sender <;> simp [hreq, hsnd]
    · simp [hreq]
  · intro t
    rw [h1]
    by_cases hreq : env.mid.req = true
    · cases hsnd : env.sender <;> simp [hreq, hsnd]
    · simp [hreq]

/-- Witness for `enqueue_closed_bounces`: a request from sender 7 to a
closed actor that failed with reason 4 is bounced with that reason. -/
theorem enqueue_closed_bounces_witness :
    enqueue { sender := some 7, mid := { req := true, seq := 2 } }
        { actor0 with mstatus := .closed, failState := some 4 }
      = ({ actor0 with mstatus := .closed, failState := some 4 },
         if ({ req := true, seq := 2 } : MsgId).req then
           match (some 7 : Option Addr) with
           | some snd => [Event.bounce snd { req := true, seq := 2 } (some 4)]
           | none => []
         else []) :=
  (enqueue_closed_bounces
    { sender := some 7, mid := { req := true, seq := 2 } }
    { actor0 with mstatus := .closed, failState := some 4 } rfl).1

/-!
## Claim C9: priority-aware dequeue order
-/

/-- A plain user envelope with the given priority bit and sequence
number, for concrete dequeue scenarios. -/
def mkEnv (h : Bool) (n : Nat) : Envelope :=
  { mid := { highPrio := h, seq := n }, payload := .user n false }

/-- The reassembly loop accumulates the batch's high-priority envelopes
in FIFO order before the insert point and appends its low-priority
envelopes in FIFO order after the existing segment. -/
theorem drainLoop_eq :
    ∀ (m before post : List Envelope),
      drainLoop m before post
        = (before ++ m.filter (fun e => e.isHighPriority),
           post ++ m.filter (fun e => !e.isHighPriority)) := by
  intro m
  induction m with
  | nil => intro before post; simp [drainLoop]
  | cons x rest ih =>
    intro before post
    by_cases hx : x.isHighPriority = true
    · simp [drainLoop, hx, ih]
    · rw [Bool.not_eq_true] at hx
      cases post with
      | nil => simp [drainLoop, hx, ih]
      | cons p ps => simp [drainLoop, hx, ih]

theorem length_filter_partition (p : Envelope → Bool) :
    ∀ xs : List Envelope,
      (xs.filter p).length + (xs.filter (fun e => !(p e))).length
        = xs.length := by
  intro xs
  induction xs with
  | nil => simp
  | cons x rest ih =>
    by_cases hx : p x = true
    · simp [List.filter_cons, hx]
      omega
    · simp [List.filter_cons, hx]
      omega

/-- Successive `next_message` calls, collecting the dequeued envelopes. -/
def pullAll : Nat → Actor → List Envelope × Actor
  | 0, a => ([], a)
  | fuel + 1, a =>
    match next_message a with
    | (none, a2) => ([], a2)
    | (some e, a2) =>
      let (rest, a3) := pullAll fuel a2
      (e :: rest, a3)

/-- A priority-aware actor with mailbox `m` and first cache segment `f`. -/
def prioActor (m f : List Envelope) : Actor :=
  { actor0 with priorityAware := true, mbox := m, cacheFirst := f }

/-- A priority-aware actor with an empty mailbox pops its reassembled
first segment in order. -/
theorem pullAll_cacheFirst :
    ∀ (fuel : Nat) (first : List Envelope), first.length ≤ fuel →
      (pullAll fuel (prioActor [] first)).1 = first := by
  intro fuel
  induction fuel with
  | zero =>
    intro first hlen
    have h0 : first = [] := List.length_eq_zero.mp (by omega)
    subst h0
    rfl
  | succ n ih =>
    intro first hlen
    cases first with
    | nil => rfl
    | cons e rest =>
      have hnm : next_message (prioActor [] (e :: rest))
          = (some e, prioActor [] rest) := by
        cases hh : e.isHighPriority with
        | true => simp [next_message, prioActor, hh]
        | false => simp [next_message, prioActor, hh, drainLoop]
      unfold pullAll
      rw [hnm]
      simp only
      rw [ih rest (by simpa using hlen)]

/-- Claim C9: for a batch `xs` enqueued by a single producer to a
priority-aware actor whose first cache segment holds only the low-priority
leftovers `old` of earlier pull cycles, the envelopes delivered by
successive `next_message` calls are exactly the batch's high-priority
envelopes in FIFO order, then the earlier leftovers, then the batch's
low-priority envelopes in FIFO order: within the pull cycle every
high-priority envelope precedes every low-priority one, and within each
priority class the producer's FIFO order is preserved across cycles
(local_actor.cpp:1074-1101). -/
theorem priority_pull_order (xs old : List Envelope)
    (hold : ∀ e ∈ old, e.isHighPriority = false) :
    (pullAll (xs.length + old.length) (prioActor xs old)).1
      = xs.filter (fun e => e.isHighPriority) ++ old
          ++ xs.filter (fun e => !e.isHighPriority) := by
  have hlenL : (xs.filter (fun e => e.isHighPriority)
      ++ (old ++ xs.filter (fun e => !e.isHighPriority))).length
      = xs.length + old.length := by
    simp only [List.length_append]
    have := length_filter_partition (fun e => e.isHighPriority) xs
    omega
  have hnm1 : next_message (prioActor xs old)
      = ((xs.filter (fun e => e.isHighPriority)
           ++ (old ++ xs.filter (fun e => !e.isHighPriority))).head?,
         prioActor []
           ((xs.filter (fun e => e.isHighPriority)
             ++ (old ++ xs.filter (fun e => !e.isHighPriority))).tail)) := by
    have hdrain : ∀ f : List Envelope,
        (match f with
         | [] => true
         | e :: _ => !e.isHighPriority) = true →
        next_message (prioActor xs f)
          = ((xs.filter (fun e => e.isHighPriority)
               ++ (f ++ xs.filter (fun e => !e.isHighPriority))).head?,
             prioActor []
               ((xs.filter (fun e => e.isHighPriority)
                 ++ (f ++ xs.filter (fun e => !e.isHighPriority))).tail)) := by
      intro f hf
      unfold next_message prioActor
      simp only [Bool.not_true, Bool.false_eq_true, if_false]
      rw [hf]
      simp only [if_pos rfl, drainLoop_eq, List.nil_append]
      cases hL : xs.filter (fun e => e.isHighPriority)
          ++ (f ++ xs.filter (fun e => !e.isHighPriority)) with
      | nil => rfl
      | cons e rest => rfl
    apply hdrain
    cases hodd : old with
    | nil => rfl
    | cons o os =>
      have ho : o.isHighPriority = false := hold o (by rw [hodd]; simp)
      simp [ho]
  cases hL : xs.filter (fun e => e.isHighPriority)
      ++ (old ++ xs.filter (fun e => !e.isHighPriority)) with
  | nil =>
    have h0 : xs.length + old.length = 0 := by
      rw [← hlenL, hL]
      rfl
    have hres : xs.filter (fun e => e.isHighPriority) ++ old
        ++ xs.filter (fun e => !e.isHighPriority) = [] := by
      rw [List.append_assoc, hL]
    rw [h0, hres]
    rfl
  | cons e rest =>
    rw [hL] at hnm1 hlenL
    have hfl : xs.length + old.length = rest.length + 1 := by
      rw [← hlenL]
      simp
    rw [hfl]
    rw [List.append_assoc, hL]
    unfold pullAll
    rw [hnm1]
    simp only [List.head?, List.tail]
    rw [pullAll_cacheFirst rest.length rest (le_refl _)]

/-- Witness for `priority_pull_order`: batch `[L1, H2, L3, H4]` with
leftover `[L0]` is delivered as `H2, H4, L0, L1, L3`. -/
theorem priority_pull_order_witness :
    (pullAll
        (([mkEnv false 1, mkEnv true 2, mkEnv false 3, mkEnv true 4] :
            List Envelope).length + ([mkEnv false 0] : List Envelope).length)
        (prioActor [mkEnv false 1, mkEnv true 2, mkEnv false 3, mkEnv true 4]
          [mkEnv false 0])).1
      = ([mkEnv false 1, mkEnv true 2, mkEnv false 3, mkEnv true 4] :
          List Envelope).filter (fun e => e.isHighPriority)
        ++ [mkEnv false 0]
        ++ ([mkEnv false 1, mkEnv true 2, mkEnv false 3, mkEnv true 4] :
            List Envelope).filter (fun e => !e.isHighPriority) :=
  priority_pull_order
    [mkEnv false 1, mkEnv true 2, mkEnv false 3, mkEnv true 4]
    [mkEnv false 0]
    (by intro e he; simp at he; rw [he]; rfl)

/-!
## Claim C10: invalid response promises suppress handler returns
-/

/-- Claim C10: `make_response_promise` yields a non-pending promise
whenever no message is being processed (`current_element_` null) or the
current message id is already answered (local_actor.hpp:324-334);
consequently the standard response visitor's `delegate` suppresses the
handler's return value instead of sending it (local_actor.cpp:503-512). -/
theorem make_response_promise_invalid (a : Actor) (r : HandlerResult)
    (h : (match a.currentElement with
          | none => true
          | some env => env.mid.answered) = true) :
    (make_response_promise a).pending = false ∧
    visitorDelegate r a = (a, []) := by
  have hmk : make_response_promise a = {} := by
    unfold make_response_promise
    cases hce : a.currentElement with
    | none => rfl
    | some env =>
      rw [hce] at h
      dsimp only at h
      simp [h]
  refine ⟨by rw [hmk], ?_⟩
  unfold visitorDelegate
  rw [hmk]
  rfl

/-- An envelope whose request id is already marked answered. -/
def answeredEnv : Envelope :=
  { sender := some 4, mid := { req := true, answered := true, seq := 6 } }

/-- Witness for `make_response_promise_invalid`: a handler return while
processing an already-answered request is suppressed. -/
theorem make_response_promise_invalid_witness :
    (make_response_promise
        { actor0 with currentElement := some answeredEnv }).pending = false ∧
    visitorDelegate (.msg false 7)
        { actor0 with currentElement := some answeredEnv }
      = ({ actor0 with currentElement := some answeredEnv }, []) :=
  make_response_promise_invalid
    { actor0 with currentElement := some answeredEnv } (.msg false 7) rfl

end Caf
